import Mathlib

/-!
Verification of the market-decision-lab backtesting core.

The definitions below are a shallow embedding of the Python sources:
* `core/market_decision_lab/backtest.py` (ATR, execution parameters),
* `core/market_decision_lab/strategy_backtest.py` (the signal-driven
  simulation engine `run_backtest_signals` and its `_validate_inputs`),
* `core/market_decision_lab/scenarios.py` (scenario selection),
* `core/market_decision_lab/decision.py` (`final_decision`),
* `src/mdl/backtest/metrics.py` (`summarize_metrics`),
* `src/mdl/lab/strategy_lab.py` (the validation prefix of
  `run_strategy_lab`).

Python floats are idealised as exact rationals, pandas frames as lists of
records, and `NaN`-able cells as `Option` values.  The per-bar loop of the
engine is split into the four phases the source body consists of (exit
block, entry block, cooldown decrement, equity recording) composed by
`processBar`, and the loop itself is the fold `traj`.
-/

set_option maxRecDepth 1000000

namespace MarketDecisionLab

/-- One OHLCV candle row as consumed by the engine: the `ts`, `open`,
`high`, `low`, `close` columns of the input frame (volume is never read by
the engine). -/
structure Bar where
  ts : Int
  open_p : ℚ
  high_p : ℚ
  low_p : ℚ
  close_p : ℚ
  deriving Repr, DecidableEq, Inhabited

/-- The `BacktestParams` dataclass of `backtest.py` with its defaults. -/
structure BacktestParams where
  ema_window : Nat := 20
  signal_mode : String := "strict"
  entry_mode : String := "next_open"
  sl_mult : ℚ := 3/2
  tp_mult : ℚ := 5/2
  fee_per_side : ℚ := 6/10000
  slippage_per_side : ℚ := 2/10000
  initial_cash : ℚ := 10000
  cooldown_candles : Int := 2
  deriving Repr, DecidableEq, Inhabited

/-- One row of the trades frame produced by the engine. -/
structure Trade where
  entry_ts : Int
  exit_ts : Int
  entry : ℚ
  exit : ℚ
  pnl : ℚ
  pnl_pct : ℚ
  reason : String
  sl : ℚ
  tp : ℚ
  deriving Repr, DecidableEq, Inhabited

/-- One row of the per-bar state frame (`states` in the source): the equity
sample recorded at the end of each bar.  `sl`/`tp` are `NaN` (here `none`)
whenever no position is open. -/
structure Sample where
  ts : Int
  close : ℚ
  atr : Option ℚ
  equity : ℚ
  position : Bool
  action : String
  sl : Option ℚ
  tp : Option ℚ
  deriving Repr, DecidableEq, Inhabited

/-- The mutable loop state of `run_backtest_signals`, with the accumulated
`trades` and `states` rows carried along. -/
structure EngineState where
  cash : ℚ
  units : ℚ
  in_position : Bool
  cooldown : Int
  entry_price_raw : ℚ
  entry_price_cost : ℚ
  entry_ts : Int
  sl : ℚ
  tp : ℚ
  trades : List Trade
  states : List Sample
  deriving Repr, DecidableEq, Inhabited

/-- State before the first bar: full cash, no position, no cooldown
(`np.nan` placeholders idealised as `0`; the source never reads them while
no position is open). -/
def initState (params : BacktestParams) : EngineState :=
  { cash := params.initial_cash, units := 0, in_position := false,
    cooldown := 0, entry_price_raw := 0, entry_price_cost := 0,
    entry_ts := 0, sl := 0, tp := 0, trades := [], states := [] }

/-- Round-half-to-even to an integer, the tie rule of Python's `round`. -/
def roundHalfEven (x : ℚ) : Int :=
  let n := ⌊x⌋
  let frac := x - n
  if frac < 1/2 then n
  else if 1/2 < frac then n + 1
  else if n % 2 = 0 then n else n + 1

/-- `round(x, 8)` as applied to the recorded trade entry/exit prices. -/
def round8 (x : ℚ) : ℚ := (roundHalfEven (x * 10^8) : ℚ) / 10^8

/-- Maximum of three rationals (the row-wise max in `_atr`). -/
def max3 (a b c : ℚ) : ℚ := max a (max b c)

/-- True-range tail: given the previous bar, the true range of each later
bar is `max(high-low, |high-prev close|, |low-prev close|)`. -/
def trAux : Bar → List Bar → List ℚ
  | _, [] => []
  | prev, b :: bs =>
      max3 (b.high_p - b.low_p) |b.high_p - prev.close_p| |b.low_p - prev.close_p|
        :: trAux b bs

/-- Per-bar true range (`_atr` in `backtest.py`).  On the first bar the
shifted previous close is `NaN` and the pandas row-wise max skips it,
leaving `high - low`. -/
def trList : List Bar → List ℚ
  | [] => []
  | b :: bs => (b.high_p - b.low_p) :: trAux b bs

/-- The rolling window of the volatility measure. -/
def ATR_WINDOW : Nat := 14

/-- 14-bar rolling mean of the true range with `min_periods = 14`: entry
`i` is defined only once bars `i-13 .. i` all exist. -/
def atrList (df : List Bar) : List (Option ℚ) :=
  let tr := trList df
  (List.range df.length).map fun i =>
    if ATR_WINDOW ≤ i + 1 then
      some (((tr.take (i + 1)).drop (i + 1 - ATR_WINDOW)).sum / (ATR_WINDOW : ℚ))
    else none

/-- The exit-price/reason decision chain of the in-position block, in its
fixed source priority: both breached → stop, stop alone → stop, target
alone → target, exit signal → close. -/
def exitDecision (bar : Bar) (exit_sig : Bool) (s : EngineState) :
    Option (ℚ × String) :=
  if bar.low_p ≤ s.sl ∧ bar.high_p ≥ s.tp then some (s.sl, "stop_loss")
  else if bar.low_p ≤ s.sl then some (s.sl, "stop_loss")
  else if bar.high_p ≥ s.tp then some (s.tp, "take_profit")
  else if exit_sig then some (bar.close_p, "signal_exit")
  else none

/-- The in-position exit block of the per-bar loop: stop/target/signal
priority, slippage and fee on the proceeds, the appended trade row, and the
cooldown restart.  Returns the updated state together with the bar-local
`action` string. -/
def exitPhase (params : BacktestParams) (bar : Bar) (exit_sig : Bool)
    (s : EngineState) : EngineState × String :=
  if s.in_position then
    match exitDecision bar exit_sig s with
    | none => (s, "HOLD")
    | some (exit_price_raw, reason) =>
        let effective_exit := exit_price_raw * (1 - params.slippage_per_side)
        let gross := s.units * effective_exit
        let fee := gross * params.fee_per_side
        let pnl_pct := ((effective_exit - s.entry_price_cost) / s.entry_price_cost) * 100
        let t : Trade :=
          { entry_ts := s.entry_ts, exit_ts := bar.ts,
            entry := round8 s.entry_price_raw, exit := round8 exit_price_raw,
            pnl := s.units * (effective_exit - s.entry_price_cost),
            pnl_pct := pnl_pct, reason := reason, sl := s.sl, tp := s.tp }
        ({ s with cash := gross - fee, units := 0, in_position := false,
                  cooldown := params.cooldown_candles,
                  trades := s.trades ++ [t] },
         "EXIT:" ++ reason)
  else (s, "HOLD")

/-- The entry block of the per-bar loop: gated on being flat, cooldown
expired, ATR defined and the entry signal; fill price/timestamp chosen by
`entry_mode` (with the last-bar fallback for `next_open`); slippage and fee
applied; opening skipped unless the spendable amount is positive. -/
def entryPhase (params : BacktestParams) (bar : Bar) (nextBar : Option Bar)
    (atr : Option ℚ) (entry_sig : Bool) (sa : EngineState × String) :
    EngineState × String :=
  let s := sa.1
  match atr with
  | none => sa
  | some atr_v =>
    if s.in_position = false ∧ s.cooldown ≤ 0 ∧ entry_sig = true then
      let fill : ℚ × Int :=
        if params.entry_mode = "next_open" then
          match nextBar with
          | some nb => (nb.open_p, nb.ts)
          | none => (bar.close_p, bar.ts)
        else (bar.close_p, bar.ts)
      let fill_raw := fill.1
      let fill_cost := fill_raw * (1 + params.slippage_per_side)
      let trade_value := s.cash
      let fee := trade_value * params.fee_per_side
      let spendable := trade_value - fee
      if spendable > 0 then
        ({ s with units := spendable / fill_cost, cash := 0,
                  in_position := true, entry_price_raw := fill_raw,
                  entry_price_cost := fill_cost, entry_ts := fill.2,
                  sl := fill_raw - params.sl_mult * atr_v,
                  tp := fill_raw + params.tp_mult * atr_v },
         "ENTRY")
      else sa
    else sa

/-- The cooldown decrement at the end of each bar: one step down while the
counter is positive and no position is open. -/
def cooldownPhase (s : EngineState) : EngineState :=
  if s.cooldown > 0 ∧ s.in_position = false then
    { s with cooldown := s.cooldown - 1 }
  else s

/-- The sample row recorded at the end of a bar: mark an open position at
`close * (1 - slippage_per_side)`, a flat book at plain close. -/
def barSample (params : BacktestParams) (bar : Bar) (atr : Option ℚ)
    (action : String) (s : EngineState) : Sample :=
  { ts := bar.ts, close := bar.close_p, atr := atr,
    equity := s.cash + s.units *
      (if s.in_position then bar.close_p * (1 - params.slippage_per_side)
       else bar.close_p),
    position := s.in_position, action := action,
    sl := if s.in_position then some s.sl else none,
    tp := if s.in_position then some s.tp else none }

/-- The equity-recording tail of each bar: append the sample row. -/
def recordPhase (params : BacktestParams) (bar : Bar) (atr : Option ℚ)
    (action : String) (s : EngineState) : EngineState :=
  { s with states := s.states ++ [barSample params bar atr action s] }

/-- One iteration of the engine loop: exit block, entry block, cooldown
decrement, equity sample. -/
def processBar (params : BacktestParams) (bar : Bar) (nextBar : Option Bar)
    (atr : Option ℚ) (entry_sig exit_sig : Bool) (s : EngineState) :
    EngineState :=
  let sa := entryPhase params bar nextBar atr entry_sig
    (exitPhase params bar exit_sig s)
  recordPhase params bar atr sa.2 (cooldownPhase sa.1)

/-- State of the engine loop after the first `n` bars of the series have
been processed. -/
def traj (params : BacktestParams) (df : List Bar)
    (entry_sig exit_sig : List Bool) : Nat → EngineState
  | 0 => initState params
  | n + 1 =>
      processBar params (df.getD n default) (df.get? (n + 1))
        ((atrList df).getD n none) (entry_sig.getD n false)
        (exit_sig.getD n false) (traj params df entry_sig exit_sig n)

/-- Loop state after the whole candle series. -/
def runCore (params : BacktestParams) (df : List Bar)
    (entry_sig exit_sig : List Bool) : EngineState :=
  traj params df entry_sig exit_sig df.length

/-- `states[-1]["equity"] = cash`: replace the equity of the last recorded
sample. -/
def setLastEquity : List Sample → ℚ → List Sample
  | [], _ => []
  | [x], e => [{ x with equity := e }]
  | x :: y :: xs, e => x :: setLastEquity (y :: xs) e

/-- The post-loop force-close block: a position still open after the last
bar is liquidated at the final close (slippage and fee applied), one trade
row with reason `end_of_test` is appended, and the last equity sample is
overwritten with the resulting cash. -/
def forceClose (params : BacktestParams) (df : List Bar) (s : EngineState) :
    EngineState :=
  let last := df.getLastD default
  let effective_exit := last.close_p * (1 - params.slippage_per_side)
  let gross := s.units * effective_exit
  let fee := gross * params.fee_per_side
  let cash := gross - fee
  let pnl_pct := ((effective_exit - s.entry_price_cost) / s.entry_price_cost) * 100
  let t : Trade :=
    { entry_ts := s.entry_ts, exit_ts := last.ts,
      entry := round8 s.entry_price_raw, exit := round8 last.close_p,
      pnl := s.units * (effective_exit - s.entry_price_cost),
      pnl_pct := pnl_pct, reason := "end_of_test", sl := s.sl, tp := s.tp }
  { s with cash := cash, trades := s.trades ++ [t],
           states := setLastEquity s.states cash }

/-- The full engine after validation: the loop followed by the conditional
force-close. -/
def runFull (params : BacktestParams) (df : List Bar)
    (entry_sig exit_sig : List Bool) : EngineState :=
  let s := runCore params df entry_sig exit_sig
  if s.in_position then forceClose params df s else s

/-- `run_backtest_signals`: validation first (empty frame, signal lengths,
`NaN` signal cells — the required-column check cannot fail on a typed bar
list and is modelled on raw frames below), then the loop and force-close.
Signal cells are `Option Bool`; `none` models a `NaN` cell. -/
def run_backtest_signals (df : List Bar)
    (entry_signal exit_signal : List (Option Bool))
    (params : BacktestParams) :
    Except String (List Sample × List Trade) :=
  if df.length = 0 then .error "Input OHLCV data is empty"
  else if entry_signal.length ≠ df.length then
    .error "Entry signal length must match OHLCV length"
  else if exit_signal.length ≠ df.length then
    .error "Exit signal length must match OHLCV length"
  else if (entry_signal.any fun o => o.isNone) ||
      (exit_signal.any fun o => o.isNone) then
    .error "Signals must not contain NaN values"
  else
    let s := runFull params df (entry_signal.map (·.getD false))
      (exit_signal.map (·.getD false))
    .ok (s.states, s.trades)

/-! ### Raw-frame validation (`_validate_inputs` in `strategy_backtest.py`)

The column check of `_validate_inputs` operates on an untyped frame, so it
is modelled on a raw shape (column names + row count) rather than on the
typed bar list. -/

/-- `REQUIRED_COLUMNS` of `strategy_backtest.py`. -/
def REQUIRED_COLUMNS : List String := ["ts", "open", "high", "low", "close"]

/-- The shape of an untyped input frame: its column names and row count. -/
structure RawFrame where
  columns : List String
  nrows : Nat
  deriving Repr, DecidableEq

/-- `_validate_inputs`: empty frame, missing required columns, signal
length mismatches and `NaN` signal cells each raise, in this order. -/
def validate_inputs (f : RawFrame)
    (entry_signal exit_signal : List (Option Bool)) : Except String Unit :=
  if f.nrows = 0 then .error "Input OHLCV data is empty"
  else if (REQUIRED_COLUMNS.filter fun c => !(f.columns.contains c)) ≠ [] then
    .error "Input OHLCV data is missing required columns"
  else if entry_signal.length ≠ f.nrows then
    .error "Entry signal length must match OHLCV length"
  else if exit_signal.length ≠ f.nrows then
    .error "Exit signal length must match OHLCV length"
  else if (entry_signal.any fun o => o.isNone) ||
      (exit_signal.any fun o => o.isNone) then
    .error "Signals must not contain NaN values"
  else .ok ()

/-! ### Strategy-Lab validation (`run_strategy_lab` in `strategy_lab.py`) -/

/-- The `OBJECTIVES` table: display name, metric column, sort-ascending. -/
def OBJECTIVES : List (String × String × Bool) :=
  [("Sharpe", "sharpe", false), ("Return", "total_return_pct", false),
   ("Min Drawdown", "max_drawdown_pct", true), ("Win Rate", "win_rate", false)]

/-- The validation prefix of `run_strategy_lab`, executed before any
candidate is generated or backtested: empty frame, unsupported objective
name, `max_runs < 1` and `top_n < 1` each raise a descriptive error. -/
def run_strategy_lab_validate (nrows : Nat) (objective : String)
    (max_runs top_n : Int) : Except String Unit :=
  if nrows = 0 then .error "Input OHLCV data is empty"
  else if ¬ (OBJECTIVES.map Prod.fst).contains objective then
    .error "Unsupported objective"
  else if max_runs < 1 then .error "max_runs must be at least 1"
  else if top_n < 1 then .error "top_n must be at least 1"
  else .ok ()

/-! ### Metrics (`summarize_metrics` in `src/mdl/backtest/metrics.py`)

The annualized-return and max-drawdown fields need real-valued powers and
a rolling peak; no claim below mentions them and they are omitted from the
bundle.  Python's `math.inf` profit factor is modelled by a dedicated
constructor. -/

/-- The profit-factor value: either a finite rational or `math.inf`. -/
inductive ProfitFactor where
  | inf : ProfitFactor
  | fin : ℚ → ProfitFactor
  deriving Repr, DecidableEq

/-- `trades_df.loc[trades_df["pnl"] > 0, "pnl"].sum()`. -/
def profits (trades : List Trade) : ℚ :=
  ((trades.filter fun t => decide (0 < t.pnl)).map Trade.pnl).sum

/-- `trades_df.loc[trades_df["pnl"] < 0, "pnl"].sum()`. -/
def losses (trades : List Trade) : ℚ :=
  ((trades.filter fun t => decide (t.pnl < 0)).map Trade.pnl).sum

/-- The metric fields claimed below, named as in the returned dict. -/
structure MetricsBundle where
  final_equity : ℚ
  total_return_pct : ℚ
  trade_count : Nat
  trades_per_week : ℚ
  win_rate : ℚ
  expectancy : ℚ
  profit_factor : ProfitFactor
  deriving Repr, DecidableEq

/-- `summarize_metrics`: the equity curve is the `equity` column of the
backtest frame. -/
def summarize_metrics (equity_curve : List ℚ) (trades : List Trade)
    (initial_cash : ℚ) (test_days : Int) : MetricsBundle :=
  let final_equity := (equity_curve.getLast?).getD initial_cash
  let total_return_decimal := final_equity / initial_cash - 1
  let trade_count := trades.length
  let trades_per_week := (trade_count : ℚ) / max 1 ((test_days : ℚ) / 7)
  let win_rate := if 0 < trade_count then
      (((trades.filter fun t => decide (0 < t.pnl)).length : ℚ) / trade_count) * 100
    else 0
  let expectancy := if 0 < trade_count then
      (trades.map Trade.pnl_pct).sum / trade_count
    else 0
  let prof := if 0 < trade_count then profits trades else 0
  let loss := if 0 < trade_count then losses trades else 0
  let profit_factor :=
    if loss = 0 ∧ 0 < prof then ProfitFactor.inf
    else if loss = 0 then ProfitFactor.fin 0
    else ProfitFactor.fin (prof / |loss|)
  { final_equity := final_equity,
    total_return_pct := total_return_decimal * 100,
    trade_count := trade_count, trades_per_week := trades_per_week,
    win_rate := win_rate, expectancy := expectancy,
    profit_factor := profit_factor }

/-! ### Scenario selection (`run_scenarios` in `scenarios.py`)

Each evaluated grid combination is reduced to its identifying signature
and the metric fields the selection reads.  The values of the `config`
constants `DD_MAX` and `TPW_TARGET` live outside the provided sources, so
they are carried as parameters; every property below holds for all values.
Python's stable `sorted(..., reverse=True)[0]` in `_select_best` returns
the earliest element with a maximal key, which `selectBestAux` computes
directly. -/

/-- The metric fields read by the scenario selection, named after the dict
keys `Expectancy %`, `Max Drawdown %`, `Trades Per Week`,
`Annualized Return %`. -/
structure ScenarioMetrics where
  expectancy : ℚ
  max_drawdown : ℚ
  trades_per_week : ℚ
  annualized_return : ℚ
  deriving Repr, DecidableEq

/-- One evaluated grid combination as carried through the selection. -/
structure Candidate where
  timeframe : String
  ema_window : Nat
  signal_mode : String
  metrics : ScenarioMetrics
  risk_exceeded : Bool
  deriving Repr, DecidableEq

/-- `sig(c)`: the identifying (timeframe, window, strictness) signature. -/
def sig (c : Candidate) : String × Nat × String :=
  (c.timeframe, c.ema_window, c.signal_mode)

/-- `sorted(xs, key=key, reverse=True)[0]` for a nonempty list split as
head and tail: the earliest element whose key is maximal, where `lt a b`
decides that the key of `a` is strictly below the key of `b`. -/
def selectBestAux {α : Type} (lt : α → α → Bool) (best : α) :
    List α → α
  | [] => best
  | c :: cs => if lt best c then selectBestAux lt c cs
               else selectBestAux lt best cs

/-- `_select_best`: `none` models the raise on an empty candidate list. -/
def selectBest {α : Type} (lt : α → α → Bool) : List α → Option α
  | [] => none
  | c :: cs => some (selectBestAux lt c cs)

/-- Scenario A's sort key: expectancy, then lower drawdown, then trade
frequency closest to target, compared lexicographically. -/
def keyA (TPW_TARGET : ℚ) (c : Candidate) : ℚ ×ₗ ℚ ×ₗ ℚ :=
  toLex (c.metrics.expectancy,
    toLex (-c.metrics.max_drawdown,
      -|c.metrics.trades_per_week - TPW_TARGET|))

/-- `_stability_score`: `1 / (1 + drawdown-as-fraction + |tpw − target|)`. -/
def stability_score (TPW_TARGET : ℚ) (m : ScenarioMetrics) : ℚ :=
  1 / (1 + m.max_drawdown / 100 + |m.trades_per_week - TPW_TARGET|)

/-- Scenario A's comparison (the key tuple of `_select_best` for A). -/
def ltA (TPW_TARGET : ℚ) (a b : Candidate) : Bool :=
  decide (keyA TPW_TARGET a < keyA TPW_TARGET b)

/-- Scenario B's comparison (`Annualized Return %`). -/
def ltB (a b : Candidate) : Bool :=
  decide (a.metrics.annualized_return < b.metrics.annualized_return)

/-- Scenario C's comparison (`_stability_score`). -/
def ltC (TPW_TARGET : ℚ) (a b : Candidate) : Bool :=
  decide (stability_score TPW_TARGET a.metrics
    < stability_score TPW_TARGET b.metrics)

/-- The scenario-B block: best annualized return among unused candidates
within the drawdown cap; if none qualify, the unused pool ignoring the
cap, then the full pool, both marked `risk_exceeded`.  `none` only on an
empty candidate list. -/
def selectScenarioB (DD_MAX : ℚ) (candidates : List Candidate)
    (used1 : List (String × Nat × String)) : Option Candidate :=
  let b_eligible := candidates.filter fun c =>
    decide (c.metrics.max_drawdown ≤ DD_MAX) && !(used1.contains (sig c))
  match selectBest ltB b_eligible with
  | some b => some b
  | none =>
    let b_candidates := candidates.filter fun c => !(used1.contains (sig c))
    match selectBest ltB b_candidates with
    | some b => some { b with risk_exceeded := true }
    | none =>
      match selectBest ltB candidates with
      | some b => some { b with risk_exceeded := true }
      | none => none

/-- The scenario-C block: most stable among still-unused candidates,
falling back to the full pool.  `none` only on an empty candidate list. -/
def selectScenarioC (TPW_TARGET : ℚ) (candidates : List Candidate)
    (used2 : List (String × Nat × String)) : Option Candidate :=
  let c_options := candidates.filter fun c => !(used2.contains (sig c))
  match selectBest (ltC TPW_TARGET) c_options with
  | some c => some c
  | none => selectBest (ltC TPW_TARGET) candidates

/-- The selection part of `run_scenarios`: scenario A (best expectancy),
then B and C with the used-signature list threaded through.  At the A step
the used set is empty, so the unused pool is the full candidate list.
`none` models the raise on an empty candidate list. -/
def run_scenarios_select (DD_MAX TPW_TARGET : ℚ)
    (candidates : List Candidate) :
    Option (Candidate × Candidate × Candidate) :=
  match selectBest (ltA TPW_TARGET) candidates with
  | none => none
  | some scenario_a =>
    match selectScenarioB DD_MAX candidates [sig scenario_a] with
    | none => none
    | some scenario_b =>
      match selectScenarioC TPW_TARGET candidates
          ([sig scenario_a] ++ [sig scenario_b]) with
      | none => none
      | some scenario_c => some (scenario_a, scenario_b, scenario_c)

/-! ### Final decision (`final_decision` in `decision.py`)

The caller passes the dict `{A, B, C}` in insertion order, so the model
takes the three scenario payloads positionally.  Each payload is reduced
to the fields `final_decision` reads: the decision status and score and
the metrics `Annualized Return %` / `Max Drawdown %`. -/

/-- One scenario payload as read by `final_decision`. -/
structure ScenRun where
  status : String
  score : ℚ
  ann : ℚ
  dd : ℚ
  deriving Repr, DecidableEq

/-- The yellow tie-break key (`decision.score`). -/
def scoreKey (p : String × ScenRun) : ℚ := p.2.score

/-- The metric fallback key `(Annualized Return %, -Max Drawdown %)`,
compared lexicographically. -/
def annDdKey (p : String × ScenRun) : ℚ ×ₗ ℚ := toLex (p.2.ann, -p.2.dd)

/-- `statuses.get(k)` over the `{A, B, C}` dict. -/
def statusOf (a b c : ScenRun) (k : String) : String :=
  if k = "A" then a.status
  else if k = "B" then b.status
  else if k = "C" then c.status
  else ""

/-- `final_decision`: returns the label (`NO`/`INVEST`/`CAUTION`) and the
recommended scenario key. -/
def final_decision (a b c : ScenRun) : String × String :=
  let all_red := a.status = "RED" ∧ b.status = "RED" ∧ c.status = "RED"
  let recommended :=
    if b.status = "GREEN" then "B"
    else if a.status = "GREEN" then "A"
    else if c.status = "GREEN" then "C"
    else
      match [("A", a), ("B", b), ("C", c)].filter
          (fun kv => decide (kv.2.status = "YELLOW")) with
      | y :: ys =>
          (selectBestAux (fun p q => decide (scoreKey p < scoreKey q)) y ys).1
      | [] =>
          (selectBestAux (fun p q => decide (annDdKey p < annDdKey q))
            ("A", a) [("B", b), ("C", c)]).1
  if all_red then ("NO", recommended)
  else if (a.status = "GREEN" ∨ b.status = "GREEN" ∨ c.status = "GREEN") ∧
      statusOf a b c recommended ≠ "RED" then ("INVEST", recommended)
  else ("CAUTION", recommended)

/-- Lookup of the scenario payload recommended by key (specification-side
companion of `statusOf`). -/
def scenOf (a b c : ScenRun) (k : String) : ScenRun :=
  if k = "A" then a else if k = "B" then b else if k = "C" then c else a

/-! ## Engine phase lemmas -/

theorem entryPhase_trades (params : BacktestParams) (bar : Bar)
    (nextBar : Option Bar) (atr : Option ℚ) (entry_sig : Bool)
    (sa : EngineState × String) :
    (entryPhase params bar nextBar atr entry_sig sa).1.trades
      = sa.1.trades := by
  unfold entryPhase
  cases atr with
  | none => rfl
  | some v => dsimp only; split_ifs <;> rfl

theorem entryPhase_states (params : BacktestParams) (bar : Bar)
    (nextBar : Option Bar) (atr : Option ℚ) (entry_sig : Bool)
    (sa : EngineState × String) :
    (entryPhase params bar nextBar atr entry_sig sa).1.states
      = sa.1.states := by
  unfold entryPhase
  cases atr with
  | none => rfl
  | some v => dsimp only; split_ifs <;> rfl

theorem cooldownPhase_trades (s : EngineState) :
    (cooldownPhase s).trades = s.trades := by
  unfold cooldownPhase; split_ifs <;> rfl

theorem cooldownPhase_states (s : EngineState) :
    (cooldownPhase s).states = s.states := by
  unfold cooldownPhase; split_ifs <;> rfl

theorem recordPhase_trades (params : BacktestParams) (bar : Bar)
    (atr : Option ℚ) (action : String) (s : EngineState) :
    (recordPhase params bar atr action s).trades = s.trades := rfl

theorem processBar_trades (params : BacktestParams) (bar : Bar)
    (nextBar : Option Bar) (atr : Option ℚ) (entry_sig exit_sig : Bool)
    (s : EngineState) :
    (processBar params bar nextBar atr entry_sig exit_sig s).trades
      = (exitPhase params bar exit_sig s).1.trades := by
  unfold processBar
  rw [recordPhase_trades, cooldownPhase_trades, entryPhase_trades]

theorem exitPhase_not_in_position (params : BacktestParams) (bar : Bar)
    (exit_sig : Bool) (s : EngineState) (h : s.in_position = false) :
    exitPhase params bar exit_sig s = (s, "HOLD") := by
  unfold exitPhase; rw [h]; rfl

/-- C1 helper: with both stop and target breached intrabar, the exit block
fires the stop branch. -/
theorem exitPhase_both_breached (params : BacktestParams) (bar : Bar)
    (exit_sig : Bool) (s : EngineState) (hpos : s.in_position = true)
    (hlo : bar.low_p ≤ s.sl) (hhi : bar.high_p ≥ s.tp) :
    exitPhase params bar exit_sig s =
      ({ s with
          cash := s.units * (s.sl * (1 - params.slippage_per_side))
            - s.units * (s.sl * (1 - params.slippage_per_side))
              * params.fee_per_side,
          units := 0, in_position := false,
          cooldown := params.cooldown_candles,
          trades := s.trades ++
            [{ entry_ts := s.entry_ts, exit_ts := bar.ts,
               entry := round8 s.entry_price_raw, exit := round8 s.sl,
               pnl := s.units * (s.sl * (1 - params.slippage_per_side)
                 - s.entry_price_cost),
               pnl_pct := ((s.sl * (1 - params.slippage_per_side)
                 - s.entry_price_cost) / s.entry_price_cost) * 100,
               reason := "stop_loss", sl := s.sl, tp := s.tp }] },
       "EXIT:stop_loss") := by
  have hdec : exitDecision bar exit_sig s = some (s.sl, "stop_loss") := by
    unfold exitDecision
    rw [if_pos ⟨hlo, hhi⟩]
  unfold exitPhase
  rw [hpos, if_pos rfl, hdec]
  rfl

/-- **C1.** On any bar processed while a position is open with both the
stop and the target breached intrabar (`low ≤ stop` and `high ≥ target`),
the engine closes the position at the stop price and appends exactly one
trade with reason `stop_loss` (never `take_profit`): the recorded exit is
the stop price, the realized pnl is taken at the slippage-adjusted stop,
and the position is closed before the entry block runs. -/
theorem stop_target_tie_break (params : BacktestParams) (bar : Bar)
    (nextBar : Option Bar) (atr : Option ℚ) (entry_sig exit_sig : Bool)
    (s : EngineState) (hpos : s.in_position = true)
    (hlo : bar.low_p ≤ s.sl) (hhi : bar.high_p ≥ s.tp) :
    ∃ t : Trade,
      (processBar params bar nextBar atr entry_sig exit_sig s).trades
          = s.trades ++ [t] ∧
      t.reason = "stop_loss" ∧
      t.reason ≠ "take_profit" ∧
      t.exit = round8 s.sl ∧
      t.pnl = s.units * (s.sl * (1 - params.slippage_per_side)
        - s.entry_price_cost) ∧
      (exitPhase params bar exit_sig s).1.in_position = false := by
  rw [processBar_trades,
    exitPhase_both_breached params bar exit_sig s hpos hlo hhi]
  refine ⟨_, rfl, rfl, ?_, rfl, rfl, rfl⟩
  show ("stop_loss" : String) ≠ "take_profit"
  decide

/-- **C1 witness**: a concrete open position whose bar breaches both the
stop (95) and the target (105) simultaneously. -/
theorem stop_target_tie_break_witness :
    ∃ t : Trade,
      (processBar {} ⟨20, 100, 110, 90, 100⟩ none none false false
          { cash := 0, units := 1, in_position := true, cooldown := 0,
            entry_price_raw := 100, entry_price_cost := 100, entry_ts := 19,
            sl := 95, tp := 105, trades := [], states := [] }).trades
          = [] ++ [t] ∧
      t.reason = "stop_loss" ∧
      t.reason ≠ "take_profit" ∧
      t.exit = round8 95 ∧
      t.pnl = 1 * (95 * (1 - ({} : BacktestParams).slippage_per_side)
        - 100) ∧
      (exitPhase {} ⟨20, 100, 110, 90, 100⟩ false
          { cash := 0, units := 1, in_position := true, cooldown := 0,
            entry_price_raw := 100, entry_price_cost := 100, entry_ts := 19,
            sl := 95, tp := 105, trades := [], states := [] }).1.in_position
        = false :=
  stop_target_tie_break {} ⟨20, 100, 110, 90, 100⟩ none none false false
    { cash := 0, units := 1, in_position := true, cooldown := 0,
      entry_price_raw := 100, entry_price_cost := 100, entry_ts := 19,
      sl := 95, tp := 105, trades := [], states := [] }
    rfl (by norm_num) (by norm_num)

theorem cooldownPhase_of_in_position (s : EngineState)
    (h : s.in_position = true) : cooldownPhase s = s := by
  unfold cooldownPhase
  rw [if_neg]
  simp [h]

/-- C4 helper: the entry block on the last bar under `next_open` timing
fills at this bar's close and timestamp. -/
theorem entryPhase_last_bar (params : BacktestParams) (bar : Bar)
    (atr_v : ℚ) (s : EngineState) (action : String)
    (hmode : params.entry_mode = "next_open")
    (hpos : s.in_position = false) (hcd : s.cooldown ≤ 0)
    (hspend : 0 < s.cash - s.cash * params.fee_per_side) :
    entryPhase params bar none (some atr_v) true (s, action) =
      ({ s with
          units := (s.cash - s.cash * params.fee_per_side)
            / (bar.close_p * (1 + params.slippage_per_side)),
          cash := 0, in_position := true,
          entry_price_raw := bar.close_p,
          entry_price_cost := bar.close_p * (1 + params.slippage_per_side),
          entry_ts := bar.ts,
          sl := bar.close_p - params.sl_mult * atr_v,
          tp := bar.close_p + params.tp_mult * atr_v },
       "ENTRY") := by
  unfold entryPhase
  dsimp only
  rw [if_pos ⟨hpos, hcd, rfl⟩, if_pos hmode]
  dsimp only
  rw [if_pos hspend]

/-- **C4.** An entry signal true on the last bar of the series (no next
bar) while flat, with cooldown expired and ATR defined and a positive
spendable amount, opens the position under `next_open` timing at this
bar's own close price and timestamp; the bar's sample records an `ENTRY`
action and no index lookup past the series occurs (the embedding is total
in the missing next bar). -/
theorem next_open_last_bar (params : BacktestParams) (bar : Bar)
    (atr_v : ℚ) (exit_sig : Bool) (s : EngineState)
    (hmode : params.entry_mode = "next_open")
    (hpos : s.in_position = false) (hcd : s.cooldown ≤ 0)
    (hspend : 0 < s.cash - s.cash * params.fee_per_side) :
    (processBar params bar none (some atr_v) true exit_sig s).in_position
        = true ∧
    (processBar params bar none (some atr_v) true exit_sig s).entry_price_raw
        = bar.close_p ∧
    (processBar params bar none (some atr_v) true exit_sig s).entry_ts
        = bar.ts ∧
    (processBar params bar none (some atr_v) true exit_sig s).trades
        = s.trades ∧
    ∃ st : Sample,
      (processBar params bar none (some atr_v) true exit_sig s).states
          = s.states ++ [st] ∧
      st.action = "ENTRY" ∧ st.position = true := by
  unfold processBar
  rw [exitPhase_not_in_position params bar exit_sig s hpos,
    entryPhase_last_bar params bar atr_v s "HOLD" hmode hpos hcd hspend]
  dsimp only
  rw [cooldownPhase_of_in_position _ rfl]
  exact ⟨rfl, rfl, rfl, rfl, _, rfl, rfl, rfl⟩

/-- **C4 witness**: an all-flat engine with full cash on a concrete last
bar, default parameters (`next_open` timing). -/
theorem next_open_last_bar_witness :
    (processBar {} ⟨42, 100, 101, 99, 100⟩ none (some 2) true false
        (initState {})).in_position = true ∧
    (processBar {} ⟨42, 100, 101, 99, 100⟩ none (some 2) true false
        (initState {})).entry_price_raw = (100 : ℚ) ∧
    (processBar {} ⟨42, 100, 101, 99, 100⟩ none (some 2) true false
        (initState {})).entry_ts = (42 : Int) ∧
    (processBar {} ⟨42, 100, 101, 99, 100⟩ none (some 2) true false
        (initState {})).trades = (initState {}).trades ∧
    ∃ st : Sample,
      (processBar {} ⟨42, 100, 101, 99, 100⟩ none (some 2) true false
          (initState {})).states = (initState {}).states ++ [st] ∧
      st.action = "ENTRY" ∧ st.position = true :=
  next_open_last_bar {} ⟨42, 100, 101, 99, 100⟩ 2 false (initState {})
    rfl rfl (by decide) (by norm_num [initState])

/-- **C2 (amended).** Whenever a position is still open after the last bar
of the loop, the engine appends exactly one additional trade, whose
recorded exit price is the final bar's close and whose exit timestamp is
the final bar's timestamp — but whose reason tag is `end_of_test` (the
spec's `end_of_period` tag does not occur in the code). -/
theorem force_close_end_of_test (params : BacktestParams) (df : List Bar)
    (entry_sig exit_sig : List Bool)
    (hopen : (runCore params df entry_sig exit_sig).in_position = true) :
    ∃ t : Trade,
      (runFull params df entry_sig exit_sig).trades
          = (runCore params df entry_sig exit_sig).trades ++ [t] ∧
      t.reason = "end_of_test" ∧
      t.exit = round8 (df.getLastD default).close_p ∧
      t.exit_ts = (df.getLastD default).ts := by
  unfold runFull
  dsimp only
  rw [hopen, if_pos rfl]
  exact ⟨_, rfl, rfl, rfl, rfl⟩

/-- A flat 15-bar series (constant close 100, high 101, low 99). -/
def barC2 (i : Int) : Bar := ⟨i, 100, 101, 99, 100⟩

def dfC2 : List Bar :=
  [barC2 0, barC2 1, barC2 2, barC2 3, barC2 4, barC2 5, barC2 6, barC2 7,
   barC2 8, barC2 9, barC2 10, barC2 11, barC2 12, barC2 13, barC2 14]

/-- Entry signal true only on bar 13 (the first bar with a defined ATR). -/
def entryC2 : List Bool :=
  [false, false, false, false, false, false, false, false, false, false,
   false, false, false, true, false]

def exitC2 : List Bool :=
  [false, false, false, false, false, false, false, false, false, false,
   false, false, false, false, false]

/-- Frictionless same-bar-close fills so the concrete run stays exact. -/
def pC2 : BacktestParams :=
  { entry_mode := "close", fee_per_side := 0, slippage_per_side := 0 }

/-- **C2 counterexample**: a run whose position is still open after the
last bar appends exactly one force-close trade, and its reason tag is
`end_of_test`, not the claimed `end_of_period`. -/
theorem end_of_period_reason_counterexample :
    (runCore pC2 dfC2 entryC2 exitC2).in_position = true ∧
    (runFull pC2 dfC2 entryC2 exitC2).trades.map Trade.reason
        = ["end_of_test"] ∧
    ("end_of_test" : String) ≠ "end_of_period" := by
  refine ⟨?_, ?_, by decide⟩
  · with_unfolding_all decide
  · with_unfolding_all decide

/-- **C2 witness**: the amended theorem applied to the concrete open-ended
run above. -/
theorem force_close_end_of_test_witness :
    ∃ t : Trade,
      (runFull pC2 dfC2 entryC2 exitC2).trades
          = (runCore pC2 dfC2 entryC2 exitC2).trades ++ [t] ∧
      t.reason = "end_of_test" ∧
      t.exit = round8 (dfC2.getLastD default).close_p ∧
      t.exit_ts = (dfC2.getLastD default).ts :=
  force_close_end_of_test pC2 dfC2 entryC2 exitC2
    (by with_unfolding_all decide)

/-! ## Cooldown behaviour (C9) -/

theorem exitPhase_fired (params : BacktestParams) (bar : Bar)
    (exit_sig : Bool) (s : EngineState) (ep : ℚ) (reason : String)
    (hpos : s.in_position = true)
    (hdec : exitDecision bar exit_sig s = some (ep, reason)) :
    exitPhase params bar exit_sig s =
      ({ s with
          cash := s.units * (ep * (1 - params.slippage_per_side))
            - s.units * (ep * (1 - params.slippage_per_side))
              * params.fee_per_side,
          units := 0, in_position := false,
          cooldown := params.cooldown_candles,
          trades := s.trades ++
            [{ entry_ts := s.entry_ts, exit_ts := bar.ts,
               entry := round8 s.entry_price_raw, exit := round8 ep,
               pnl := s.units * (ep * (1 - params.slippage_per_side)
                 - s.entry_price_cost),
               pnl_pct := ((ep * (1 - params.slippage_per_side)
                 - s.entry_price_cost) / s.entry_price_cost) * 100,
               reason := reason, sl := s.sl, tp := s.tp }] },
       "EXIT:" ++ reason) := by
  unfold exitPhase
  rw [hpos, if_pos rfl, hdec]

theorem exitPhase_unfired (params : BacktestParams) (bar : Bar)
    (exit_sig : Bool) (s : EngineState) (hpos : s.in_position = true)
    (hdec : exitDecision bar exit_sig s = none) :
    exitPhase params bar exit_sig s = (s, "HOLD") := by
  unfold exitPhase
  rw [hpos, if_pos rfl, hdec]

theorem entryPhase_of_in_position (params : BacktestParams) (bar : Bar)
    (nextBar : Option Bar) (atr : Option ℚ) (entry_sig : Bool)
    (sa : EngineState × String) (h : sa.1.in_position = true) :
    entryPhase params bar nextBar atr entry_sig sa = sa := by
  unfold entryPhase
  cases atr with
  | none => rfl
  | some v =>
    dsimp only
    rw [if_neg]
    rintro ⟨h1, -, -⟩
    rw [h] at h1
    exact absurd h1 (by decide)

theorem entryPhase_of_cooldown_pos (params : BacktestParams) (bar : Bar)
    (nextBar : Option Bar) (atr : Option ℚ) (entry_sig : Bool)
    (sa : EngineState × String) (h : 0 < sa.1.cooldown) :
    entryPhase params bar nextBar atr entry_sig sa = sa := by
  unfold entryPhase
  cases atr with
  | none => rfl
  | some v =>
    dsimp only
    rw [if_neg]
    rintro ⟨-, h2, -⟩
    omega

theorem recordPhase_in_position (params : BacktestParams) (bar : Bar)
    (atr : Option ℚ) (action : String) (s : EngineState) :
    (recordPhase params bar atr action s).in_position = s.in_position := rfl

theorem recordPhase_cooldown (params : BacktestParams) (bar : Bar)
    (atr : Option ℚ) (action : String) (s : EngineState) :
    (recordPhase params bar atr action s).cooldown = s.cooldown := rfl

/-- While flat with a positive cooldown counter, a bar changes nothing but
the counter (one step down) and the recorded `HOLD` sample: in particular
no entry opens. -/
theorem processBar_flat_cooldown (params : BacktestParams) (bar : Bar)
    (nextBar : Option Bar) (atr : Option ℚ) (entry_sig exit_sig : Bool)
    (s : EngineState) (hflat : s.in_position = false)
    (hcd : 0 < s.cooldown) :
    processBar params bar nextBar atr entry_sig exit_sig s =
      { s with cooldown := s.cooldown - 1,
               states := s.states ++
                 [{ ts := bar.ts, close := bar.close_p, atr := atr,
                    equity := s.cash + s.units * bar.close_p,
                    position := false, action := "HOLD",
                    sl := none, tp := none }] } := by
  unfold processBar
  rw [exitPhase_not_in_position params bar exit_sig s hflat,
    entryPhase_of_cooldown_pos params bar nextBar atr entry_sig (s, "HOLD") hcd]
  dsimp only
  unfold cooldownPhase
  rw [if_pos ⟨hcd, hflat⟩]
  unfold recordPhase
  dsimp only
  rw [hflat]
  rfl

/-- One unfolding step of the loop. -/
theorem traj_succ (params : BacktestParams) (df : List Bar)
    (entry_sig exit_sig : List Bool) (n : Nat) :
    traj params df entry_sig exit_sig (n + 1)
      = processBar params (df.getD n default) (df.get? (n + 1))
          ((atrList df).getD n none) (entry_sig.getD n false)
          (exit_sig.getD n false)
          (traj params df entry_sig exit_sig n) := rfl

/-- Iterated form: while flat with counter value `cd`, each of the next
`cd` bars keeps the book flat, counts the counter down by one, and records
a plain `HOLD` sample — no entry opens during the window. -/
theorem traj_cooldown_hold (params : BacktestParams) (df : List Bar)
    (entry_sig exit_sig : List Bool) (n : Nat) (j : Nat)
    (hflat : (traj params df entry_sig exit_sig n).in_position = false)
    (hj : (j : Int) < (traj params df entry_sig exit_sig n).cooldown) :
    (traj params df entry_sig exit_sig (n + j + 1)).in_position = false ∧
    (traj params df entry_sig exit_sig (n + j + 1)).cooldown
      = (traj params df entry_sig exit_sig n).cooldown - (j + 1) ∧
    ∃ st : Sample,
      (traj params df entry_sig exit_sig (n + j + 1)).states
        = (traj params df entry_sig exit_sig (n + j)).states ++ [st] ∧
      st.action = "HOLD" ∧ st.position = false := by
  induction j with
  | zero =>
    have h0 : (0 : Int) < (traj params df entry_sig exit_sig n).cooldown := by
      exact_mod_cast hj
    have heq : traj params df entry_sig exit_sig (n + 0 + 1)
        = { (traj params df entry_sig exit_sig n) with
            cooldown := (traj params df entry_sig exit_sig n).cooldown - 1,
            states := (traj params df entry_sig exit_sig n).states ++
              [{ ts := (df.getD n default).ts,
                 close := (df.getD n default).close_p,
                 atr := (atrList df).getD n none,
                 equity := (traj params df entry_sig exit_sig n).cash
                   + (traj params df entry_sig exit_sig n).units
                     * (df.getD n default).close_p,
                 position := false, action := "HOLD",
                 sl := none, tp := none }] } := by
      rw [traj_succ]
      exact processBar_flat_cooldown params (df.getD n default)
        (df.get? (n + 1)) ((atrList df).getD n none)
        (entry_sig.getD n false) (exit_sig.getD n false)
        (traj params df entry_sig exit_sig n) hflat h0
    rw [heq]
    refine ⟨hflat, ?_, ?_⟩ <;> dsimp only [Nat.add_zero]
    · omega
    · exact ⟨_, rfl, rfl, rfl⟩
  | succ j ih =>
    have hj' : (j : Int) < (traj params df entry_sig exit_sig n).cooldown := by
      push_cast at hj ⊢
      omega
    obtain ⟨ihflat, ihcd, -⟩ := ih hj'
    have hcdpos : 0 < (traj params df entry_sig exit_sig (n + j + 1)).cooldown := by
      rw [ihcd]
      push_cast at hj
      omega
    have heq : traj params df entry_sig exit_sig ((n + j + 1) + 1)
        = { (traj params df entry_sig exit_sig (n + j + 1)) with
            cooldown := (traj params df entry_sig exit_sig (n + j + 1)).cooldown - 1,
            states := (traj params df entry_sig exit_sig (n + j + 1)).states ++
              [{ ts := (df.getD (n + j + 1) default).ts,
                 close := (df.getD (n + j + 1) default).close_p,
                 atr := (atrList df).getD (n + j + 1) none,
                 equity := (traj params df entry_sig exit_sig (n + j + 1)).cash
                   + (traj params df entry_sig exit_sig (n + j + 1)).units
                     * (df.getD (n + j + 1) default).close_p,
                 position := false, action := "HOLD",
                 sl := none, tp := none }] } := by
      rw [traj_succ]
      exact processBar_flat_cooldown params (df.getD (n + j + 1) default)
        (df.get? (n + j + 1 + 1)) ((atrList df).getD (n + j + 1) none)
        (entry_sig.getD (n + j + 1) false) (exit_sig.getD (n + j + 1) false)
        (traj params df entry_sig exit_sig (n + j + 1)) ihflat hcdpos
    have hidx : n + (j + 1) + 1 = (n + j + 1) + 1 := by omega
    have hidx2 : n + (j + 1) = n + j + 1 := by omega
    rw [hidx, hidx2, heq]
    refine ⟨ihflat, ?_, ?_⟩ <;> dsimp only
    · rw [ihcd]
      push_cast
      ring
    · exact ⟨_, rfl, rfl, rfl⟩

/-- A bar that closes an open position (the flag flips from open to flat
across the bar) leaves the counter at `cooldown_candles - 1`: the exit set
it to `cooldown_candles`, the same-bar entry check saw the positive
counter, and the end-of-bar decrement fired. -/
theorem processBar_exit_sets_cooldown (params : BacktestParams) (bar : Bar)
    (nextBar : Option Bar) (atr : Option ℚ) (entry_sig exit_sig : Bool)
    (s : EngineState) (hpos : s.in_position = true)
    (hc : 1 ≤ params.cooldown_candles)
    (hflip : (processBar params bar nextBar atr entry_sig exit_sig s).in_position
      = false) :
    (processBar params bar nextBar atr entry_sig exit_sig s).cooldown
      = params.cooldown_candles - 1 := by
  cases hdec : exitDecision bar exit_sig s with
  | none =>
    exfalso
    unfold processBar at hflip
    rw [exitPhase_unfired params bar exit_sig s hpos hdec,
      entryPhase_of_in_position params bar nextBar atr entry_sig (s, "HOLD") hpos]
      at hflip
    dsimp only at hflip
    rw [cooldownPhase_of_in_position s hpos, recordPhase_in_position] at hflip
    rw [hpos] at hflip
    exact absurd hflip (by decide)
  | some pr =>
    obtain ⟨ep, reason⟩ := pr
    unfold processBar
    rw [exitPhase_fired params bar exit_sig s ep reason hpos hdec]
    rw [entryPhase_of_cooldown_pos params bar nextBar atr entry_sig _ (by dsimp only; omega)]
    dsimp only
    unfold cooldownPhase
    rw [if_pos ⟨by dsimp only; omega, rfl⟩]
    rw [recordPhase_cooldown]

/-- **C9 (amended).** With cooldown length `c ≥ 1`, after a position exit
on bar `i` the counter stands at `c - 1` entering bar `i+1` (it was set to
`c` by the exit and decremented once on the exit bar itself, which also
blocks same-bar re-entry); consequently no new entry opens on bars `i+1`
through `i+c-1` — each of those bars keeps the book flat and records a
plain `HOLD` sample.  An entry may open as early as bar `i+c`. -/
theorem cooldown_window_after_exit (params : BacktestParams)
    (df : List Bar) (entry_sig exit_sig : List Bool) (i : Nat)
    (hpos : (traj params df entry_sig exit_sig i).in_position = true)
    (hflip : (traj params df entry_sig exit_sig (i + 1)).in_position = false)
    (hc : 1 ≤ params.cooldown_candles) :
    (traj params df entry_sig exit_sig (i + 1)).cooldown
        = params.cooldown_candles - 1 ∧
    ∀ j : Nat, (j : Int) < params.cooldown_candles - 1 →
      (traj params df entry_sig exit_sig (i + 1 + j + 1)).in_position
          = false ∧
      ∃ st : Sample,
        (traj params df entry_sig exit_sig (i + 1 + j + 1)).states
          = (traj params df entry_sig exit_sig (i + 1 + j)).states ++ [st] ∧
        st.action = "HOLD" ∧ st.position = false := by
  have hcool : (traj params df entry_sig exit_sig (i + 1)).cooldown
      = params.cooldown_candles - 1 := by
    have := processBar_exit_sets_cooldown params
      (df.getD i default) (df.get? (i + 1)) ((atrList df).getD i none)
      (entry_sig.getD i false) (exit_sig.getD i false)
      (traj params df entry_sig exit_sig i) hpos hc
    unfold traj at hflip ⊢
    exact this hflip
  refine ⟨hcool, fun j hj => ?_⟩
  have hj' : (j : Int) < (traj params df entry_sig exit_sig (i + 1)).cooldown := by
    rw [hcool]; exact hj
  obtain ⟨h1, -, h3⟩ := traj_cooldown_hold params df entry_sig exit_sig
    (i + 1) j hflip hj'
  exact ⟨h1, h3⟩

/-- A flat 16-bar series for the cooldown counterexample. -/
def barC9 (i : Int) : Bar := ⟨i, 100, 101, 99, 100⟩

def dfC9 : List Bar :=
  [barC9 0, barC9 1, barC9 2, barC9 3, barC9 4, barC9 5, barC9 6, barC9 7,
   barC9 8, barC9 9, barC9 10, barC9 11, barC9 12, barC9 13, barC9 14,
   barC9 15]

/-- Entry requested on bar 13 and again on bar 15. -/
def entryC9 : List Bool :=
  [false, false, false, false, false, false, false, false, false, false,
   false, false, false, true, false, true]

/-- Exit signal on bar 14. -/
def exitC9 : List Bool :=
  [false, false, false, false, false, false, false, false, false, false,
   false, false, false, false, true, false]

/-- Cooldown of one bar, frictionless same-bar-close fills. -/
def pC9 : BacktestParams :=
  { cooldown_candles := 1, entry_mode := "close",
    fee_per_side := 0, slippage_per_side := 0 }

/-- **C9 counterexample**: with cooldown length `c = 1` a position exit
occurs on bar `i = 14` (the flag flips across the bar), yet a new entry
opens on bar `15 = i + 1 = i + c` — inside the window `i+1 .. i+c` the
claim asserts is entry-free.  The decrement on the exit bar itself leaves
the counter at `0` entering bar `i+1`. -/
theorem cooldown_claim_counterexample :
    pC9.cooldown_candles = 1 ∧
    (traj pC9 dfC9 entryC9 exitC9 14).in_position = true ∧
    (traj pC9 dfC9 entryC9 exitC9 15).in_position = false ∧
    ((runFull pC9 dfC9 entryC9 exitC9).states.getD 14 default).action
        = "EXIT:signal_exit" ∧
    ((runFull pC9 dfC9 entryC9 exitC9).states.getD 15 default).action
        = "ENTRY" ∧
    ((runFull pC9 dfC9 entryC9 exitC9).states.getD 15 default).position
        = true := by
  refine ⟨by decide, ?_, ?_, ?_, ?_, ?_⟩ <;> with_unfolding_all decide

/-- A flat 17-bar series for the cooldown-window witness run. -/
def dfC9w : List Bar :=
  [barC9 0, barC9 1, barC9 2, barC9 3, barC9 4, barC9 5, barC9 6, barC9 7,
   barC9 8, barC9 9, barC9 10, barC9 11, barC9 12, barC9 13, barC9 14,
   barC9 15, barC9 16]

def entryC9w : List Bool :=
  [false, false, false, false, false, false, false, false, false, false,
   false, false, false, true, false, false, false]

def exitC9w : List Bool :=
  [false, false, false, false, false, false, false, false, false, false,
   false, false, false, false, true, false, false]

/-- Default two-bar cooldown, frictionless same-bar-close fills. -/
def pC9w : BacktestParams :=
  { entry_mode := "close", fee_per_side := 0, slippage_per_side := 0 }

/-- **C9 witness**: the amended cooldown-window theorem applied to a
concrete run whose position exits on bar 14 under the default two-bar
cooldown. -/
theorem cooldown_window_after_exit_witness :
    (traj pC9w dfC9w entryC9w exitC9w (14 + 1)).cooldown
        = pC9w.cooldown_candles - 1 ∧
    ∀ j : Nat, (j : Int) < pC9w.cooldown_candles - 1 →
      (traj pC9w dfC9w entryC9w exitC9w (14 + 1 + j + 1)).in_position
          = false ∧
      ∃ st : Sample,
        (traj pC9w dfC9w entryC9w exitC9w (14 + 1 + j + 1)).states
          = (traj pC9w dfC9w entryC9w exitC9w (14 + 1 + j)).states ++ [st] ∧
        st.action = "HOLD" ∧ st.position = false :=
  cooldown_window_after_exit pC9w dfC9w entryC9w exitC9w 14
    (by with_unfolding_all decide) (by with_unfolding_all decide)
    (by decide)

/-! ## Equity-sample invariants (C10) -/

theorem exitPhase_states (params : BacktestParams) (bar : Bar)
    (exit_sig : Bool) (s : EngineState) :
    (exitPhase params bar exit_sig s).1.states = s.states := by
  unfold exitPhase
  split_ifs with h
  · cases exitDecision bar exit_sig s with
    | none => rfl
    | some pr => obtain ⟨ep, reason⟩ := pr; rfl
  · rfl

/-- All capital is committed while a position is open, and a flat book
holds no units. -/
def CashUnitsInv (s : EngineState) : Prop :=
  (s.in_position = true → s.cash = 0) ∧
  (s.in_position = false → s.units = 0)

theorem exitPhase_preserves_inv (params : BacktestParams) (bar : Bar)
    (exit_sig : Bool) (s : EngineState) (h : CashUnitsInv s) :
    CashUnitsInv (exitPhase params bar exit_sig s).1 := by
  cases hpos : s.in_position with
  | false =>
    rw [exitPhase_not_in_position params bar exit_sig s hpos]
    exact h
  | true =>
    cases hdec : exitDecision bar exit_sig s with
    | none =>
      rw [exitPhase_unfired params bar exit_sig s hpos hdec]
      exact h
    | some pr =>
      obtain ⟨ep, reason⟩ := pr
      rw [exitPhase_fired params bar exit_sig s ep reason hpos hdec]
      constructor
      · intro h'
        exact absurd h' Bool.false_ne_true
      · intro h'
        rfl

theorem entryPhase_preserves_inv (params : BacktestParams) (bar : Bar)
    (nextBar : Option Bar) (atr : Option ℚ) (entry_sig : Bool)
    (sa : EngineState × String) (h : CashUnitsInv sa.1) :
    CashUnitsInv (entryPhase params bar nextBar atr entry_sig sa).1 := by
  unfold entryPhase
  cases atr with
  | none => exact h
  | some v =>
    dsimp only
    by_cases h1 : sa.1.in_position = false ∧ sa.1.cooldown ≤ 0 ∧
        entry_sig = true
    · rw [if_pos h1]
      by_cases h2 : sa.1.cash - sa.1.cash * params.fee_per_side > 0
      · rw [if_pos h2]
        constructor
        · intro h'
          rfl
        · intro h'
          exact Bool.noConfusion h'
      · rw [if_neg h2]
        exact h
    · rw [if_neg h1]
      exact h

theorem cooldownPhase_preserves_inv (s : EngineState)
    (h : CashUnitsInv s) : CashUnitsInv (cooldownPhase s) := by
  unfold cooldownPhase
  split_ifs <;> exact h

theorem processBar_preserves_inv (params : BacktestParams) (bar : Bar)
    (nextBar : Option Bar) (atr : Option ℚ) (entry_sig exit_sig : Bool)
    (s : EngineState) (h : CashUnitsInv s) :
    CashUnitsInv (processBar params bar nextBar atr entry_sig exit_sig s) := by
  unfold processBar
  exact cooldownPhase_preserves_inv _
    (entryPhase_preserves_inv params bar nextBar atr entry_sig _
      (exitPhase_preserves_inv params bar exit_sig s h))

theorem traj_inv (params : BacktestParams) (df : List Bar)
    (entry_sig exit_sig : List Bool) (n : Nat) :
    CashUnitsInv (traj params df entry_sig exit_sig n) := by
  induction n with
  | zero =>
    constructor
    · intro h'
      exact absurd h' Bool.false_ne_true
    · intro h'
      rfl
  | succ n ih => exact processBar_preserves_inv _ _ _ _ _ _ _ ih

/-- Each bar appends exactly one sample, built from the end-of-bar engine
state: its flag is the engine's flag and its equity marks the book at the
slippage-discounted close while open, at the plain close while flat. -/
theorem processBar_sample (params : BacktestParams) (bar : Bar)
    (nextBar : Option Bar) (atr : Option ℚ) (entry_sig exit_sig : Bool)
    (s : EngineState) :
    ∃ st : Sample,
      (processBar params bar nextBar atr entry_sig exit_sig s).states
        = s.states ++ [st] ∧
      st.position
        = (processBar params bar nextBar atr entry_sig exit_sig s).in_position ∧
      st.equity
        = (processBar params bar nextBar atr entry_sig exit_sig s).cash
          + (processBar params bar nextBar atr entry_sig exit_sig s).units
            * (if (processBar params bar nextBar atr entry_sig exit_sig s).in_position
               then bar.close_p * (1 - params.slippage_per_side)
               else bar.close_p) := by
  have hstates : (cooldownPhase (entryPhase params bar nextBar atr entry_sig
      (exitPhase params bar exit_sig s)).1).states = s.states := by
    rw [cooldownPhase_states, entryPhase_states, exitPhase_states]
  refine ⟨barSample params bar atr
      (entryPhase params bar nextBar atr entry_sig
        (exitPhase params bar exit_sig s)).2
      (cooldownPhase (entryPhase params bar nextBar atr entry_sig
        (exitPhase params bar exit_sig s)).1),
    ?_, rfl, rfl⟩
  show (cooldownPhase (entryPhase params bar nextBar atr entry_sig
      (exitPhase params bar exit_sig s)).1).states ++ _ = s.states ++ _
  rw [hstates]

/-- **C10 (amended).** At every bar of the loop the recorded equity sample
satisfies `equity = cash + units * mark` against the end-of-bar engine
state, with the mark equal to `close * (1 - slippage_per_side)` while a
position is open and the plain close otherwise; while open the engine's
cash is exactly `0`, and while flat its units are `0` so the sample equity
equals the cash exactly.  The single exception the claim misses: when a
position survives the final bar, the force-close overwrites the last
sample's equity with the post-liquidation cash
`units * close * (1 - slippage) * (1 - fee)`, which is below the claimed
`cash + units * mark` whenever the fee is positive. -/
theorem equity_sample_invariant (params : BacktestParams) (df : List Bar)
    (entry_sig exit_sig : List Bool) (i : Nat) (_hi : i < df.length) :
    (∃ st : Sample,
      (traj params df entry_sig exit_sig (i + 1)).states
        = (traj params df entry_sig exit_sig i).states ++ [st] ∧
      st.position = (traj params df entry_sig exit_sig (i + 1)).in_position ∧
      st.equity
        = (traj params df entry_sig exit_sig (i + 1)).cash
          + (traj params df entry_sig exit_sig (i + 1)).units
            * (if (traj params df entry_sig exit_sig (i + 1)).in_position
               then (df.getD i default).close_p * (1 - params.slippage_per_side)
               else (df.getD i default).close_p) ∧
      ((traj params df entry_sig exit_sig (i + 1)).in_position = true →
        (traj params df entry_sig exit_sig (i + 1)).cash = 0) ∧
      ((traj params df entry_sig exit_sig (i + 1)).in_position = false →
        (traj params df entry_sig exit_sig (i + 1)).units = 0 ∧
        st.equity = (traj params df entry_sig exit_sig (i + 1)).cash)) ∧
    ((runCore params df entry_sig exit_sig).in_position = true →
      (runFull params df entry_sig exit_sig).states
        = setLastEquity (runCore params df entry_sig exit_sig).states
            ((runCore params df entry_sig exit_sig).units
              * ((df.getLastD default).close_p
                * (1 - params.slippage_per_side))
              * (1 - params.fee_per_side))) := by
  constructor
  · obtain ⟨st, h1, h2, h3⟩ := processBar_sample params (df.getD i default)
      (df.get? (i + 1)) ((atrList df).getD i none) (entry_sig.getD i false)
      (exit_sig.getD i false) (traj params df entry_sig exit_sig i)
    have hinv := traj_inv params df entry_sig exit_sig (i + 1)
    rw [traj_succ] at hinv ⊢
    refine ⟨st, h1, h2, h3, hinv.1, fun hflat => ⟨hinv.2 hflat, ?_⟩⟩
    rw [h3, hinv.2 hflat, hflat]
    simp
  · intro hopen
    unfold runFull
    dsimp only
    rw [hopen, if_pos rfl]
    unfold forceClose
    dsimp only
    show setLastEquity _ _ = setLastEquity _ _
    congr 1
    ring

/-- A flat 15-bar series for the equity-overwrite counterexample. -/
def barC10 (i : Int) : Bar := ⟨i, 100, 101, 99, 100⟩

def dfC10 : List Bar :=
  [barC10 0, barC10 1, barC10 2, barC10 3, barC10 4, barC10 5, barC10 6,
   barC10 7, barC10 8, barC10 9, barC10 10, barC10 11, barC10 12,
   barC10 13, barC10 14]

def entryC10 : List Bool :=
  [false, false, false, false, false, false, false, false, false, false,
   false, false, false, true, false]

def exitC10 : List Bool :=
  [false, false, false, false, false, false, false, false, false, false,
   false, false, false, false, false]

/-- A 10% fee per side and no slippage, starting from 100 in cash. -/
def pC10 : BacktestParams :=
  { entry_mode := "close", fee_per_side := 1/10,
    slippage_per_side := 0, initial_cash := 100 }

/-- **C10 counterexample**: the position opened on bar 13 (0.9 units at
100 after the 10-unit fee) survives the final bar, so the force-close
overwrites the last recorded sample's equity with the post-liquidation
cash 81, while the end-of-bar engine state (`cash = 0`, `units = 0.9`,
mark 100) makes the claimed `cash + units * mark` equal to 90. -/
theorem equity_sample_counterexample :
    ((runFull pC10 dfC10 entryC10 exitC10).states.getD 14 default).position
        = true ∧
    (traj pC10 dfC10 entryC10 exitC10 15).cash = 0 ∧
    (traj pC10 dfC10 entryC10 exitC10 15).units = 9/10 ∧
    ((runFull pC10 dfC10 entryC10 exitC10).states.getD 14 default).equity
        = 81 ∧
    ¬ ((runFull pC10 dfC10 entryC10 exitC10).states.getD 14 default).equity
        = (traj pC10 dfC10 entryC10 exitC10 15).cash
          + (traj pC10 dfC10 entryC10 exitC10 15).units
            * ((dfC10.getD 14 default).close_p
              * (1 - pC10.slippage_per_side)) := by
  refine ⟨?_, ?_, ?_, ?_, ?_⟩ <;> with_unfolding_all decide

/-- **C10 witness**: the amended invariant applied to the run above at its
final bar (where the force-close overwrite also fires). -/
theorem equity_sample_invariant_witness :
    (∃ st : Sample,
      (traj pC10 dfC10 entryC10 exitC10 (14 + 1)).states
        = (traj pC10 dfC10 entryC10 exitC10 14).states ++ [st] ∧
      st.position = (traj pC10 dfC10 entryC10 exitC10 (14 + 1)).in_position ∧
      st.equity
        = (traj pC10 dfC10 entryC10 exitC10 (14 + 1)).cash
          + (traj pC10 dfC10 entryC10 exitC10 (14 + 1)).units
            * (if (traj pC10 dfC10 entryC10 exitC10 (14 + 1)).in_position
               then (dfC10.getD 14 default).close_p
                 * (1 - pC10.slippage_per_side)
               else (dfC10.getD 14 default).close_p) ∧
      ((traj pC10 dfC10 entryC10 exitC10 (14 + 1)).in_position = true →
        (traj pC10 dfC10 entryC10 exitC10 (14 + 1)).cash = 0) ∧
      ((traj pC10 dfC10 entryC10 exitC10 (14 + 1)).in_position = false →
        (traj pC10 dfC10 entryC10 exitC10 (14 + 1)).units = 0 ∧
        st.equity = (traj pC10 dfC10 entryC10 exitC10 (14 + 1)).cash)) ∧
    ((runCore pC10 dfC10 entryC10 exitC10).in_position = true →
      (runFull pC10 dfC10 entryC10 exitC10).states
        = setLastEquity (runCore pC10 dfC10 entryC10 exitC10).states
            ((runCore pC10 dfC10 entryC10 exitC10).units
              * ((dfC10.getLastD default).close_p
                * (1 - pC10.slippage_per_side))
              * (1 - pC10.fee_per_side))) :=
  equity_sample_invariant pC10 dfC10 entryC10 exitC10 14 (by decide)

/-! ## Metrics: trade frequency (C3) -/

/-- **C3 (amended).** The metrics summarizer reports the trade count as
the trade-list length and trades/week as `count / max(1, days/7)` — the
code floors the quotient `days/7` at 1, not the day count: for `days ≥ 7`
this equals `count * 7 / days`, but for `days < 7` it equals the raw
count. -/
theorem trades_per_week_spec (equity_curve : List ℚ) (trades : List Trade)
    (initial_cash : ℚ) (test_days : Int) :
    (summarize_metrics equity_curve trades initial_cash test_days).trade_count
        = trades.length ∧
    (summarize_metrics equity_curve trades initial_cash test_days).trades_per_week
        = (trades.length : ℚ) / max 1 ((test_days : ℚ) / 7) ∧
    (test_days < 7 →
      (summarize_metrics equity_curve trades initial_cash
        test_days).trades_per_week = (trades.length : ℚ)) ∧
    (7 ≤ test_days →
      (summarize_metrics equity_curve trades initial_cash
        test_days).trades_per_week
          = (trades.length : ℚ) * 7 / (test_days : ℚ)) := by
  refine ⟨rfl, rfl, fun h => ?_, fun h => ?_⟩
  · have h7 : ((test_days : ℚ) / 7) < 1 := by
      rw [div_lt_one (by norm_num : (0:ℚ) < 7)]
      exact_mod_cast h
    show (trades.length : ℚ) / max 1 ((test_days : ℚ) / 7) = _
    rw [max_eq_left h7.le, div_one]
  · have h7 : (1 : ℚ) ≤ (test_days : ℚ) / 7 := by
      rw [le_div_iff₀ (by norm_num : (0:ℚ) < 7)]
      have h7q : (7 : ℚ) ≤ (test_days : ℚ) := by exact_mod_cast h
      linarith
    show (trades.length : ℚ) / max 1 ((test_days : ℚ) / 7) = _
    rw [max_eq_right h7, div_div_eq_mul_div]

/-- A placeholder losing trade used by the C3 counterexample run. -/
def tC3 : Trade :=
  { entry_ts := 0, exit_ts := 1, entry := 100, exit := 99, pnl := -1,
    pnl_pct := -1, reason := "signal_exit", sl := 0, tp := 0 }

/-- **C3 counterexample**: for a one-trade list over a 3-day test period
the code reports 1 trade/week (the quotient `3/7` is floored to 1), not
the claimed `1 * 7 / 3`. -/
theorem trades_per_week_counterexample :
    (summarize_metrics [] [tC3] 100 3).trade_count = 1 ∧
    (summarize_metrics [] [tC3] 100 3).trades_per_week = 1 ∧
    (summarize_metrics [] [tC3] 100 3).trades_per_week ≠ 1 * 7 / 3 := by
  refine ⟨rfl, ?_, ?_⟩ <;> with_unfolding_all decide

/-- **C3 witness**: the amended formulas evaluated on a concrete 21-day,
one-trade summary. -/
theorem trades_per_week_spec_witness :
    (summarize_metrics [] [tC3] 100 21).trade_count = [tC3].length ∧
    (summarize_metrics [] [tC3] 100 21).trades_per_week
        = ([tC3].length : ℚ) * 7 / (21 : ℚ) :=
  ⟨(trades_per_week_spec [] [tC3] 100 21).1,
   (trades_per_week_spec [] [tC3] 100 21).2.2.2 (by norm_num)⟩

/-! ## Metrics: profit factor (C6) -/

theorem profits_nonneg (trades : List Trade) : 0 ≤ profits trades := by
  induction trades with
  | nil => exact le_refl 0
  | cons t ts ih =>
    unfold profits at ih ⊢
    simp only [List.filter_cons, decide_eq_true_eq]
    by_cases h : 0 < t.pnl
    · rw [if_pos h, List.map_cons, List.sum_cons]
      linarith
    · rw [if_neg h]
      exact ih

theorem losses_nonpos (trades : List Trade) : losses trades ≤ 0 := by
  induction trades with
  | nil => exact le_refl 0
  | cons t ts ih =>
    unfold losses at ih ⊢
    simp only [List.filter_cons, decide_eq_true_eq]
    by_cases h : t.pnl < 0
    · rw [if_pos h, List.map_cons, List.sum_cons]
      linarith
    · rw [if_neg h]
      exact ih

theorem losses_eq_zero_iff (trades : List Trade) :
    losses trades = 0 ↔ ∀ t ∈ trades, ¬ t.pnl < 0 := by
  induction trades with
  | nil => simp [losses]
  | cons t ts ih =>
    unfold losses at ih ⊢
    simp only [List.filter_cons, decide_eq_true_eq, List.mem_cons]
    by_cases h : t.pnl < 0
    · rw [if_pos h, List.map_cons, List.sum_cons]
      constructor
      · intro h0
        have hle := losses_nonpos ts
        unfold losses at hle
        intro u hu
        linarith
      · intro hall
        exact absurd h (hall t (Or.inl rfl))
    · rw [if_neg h, ih]
      constructor
      · intro hall u hu
        rcases hu with hu | hu
        · rw [hu]; exact h
        · exact hall u hu
      · intro hall u hu
        exact hall u (Or.inr hu)

theorem profits_pos_iff (trades : List Trade) :
    0 < profits trades ↔ ∃ t ∈ trades, 0 < t.pnl := by
  induction trades with
  | nil => simp [profits]
  | cons t ts ih =>
    unfold profits at ih ⊢
    simp only [List.filter_cons, decide_eq_true_eq, List.mem_cons]
    by_cases h : 0 < t.pnl
    · rw [if_pos h, List.map_cons, List.sum_cons]
      have hnn := profits_nonneg ts
      unfold profits at hnn
      constructor
      · intro _
        exact ⟨t, Or.inl rfl, h⟩
      · intro _
        linarith
    · rw [if_neg h, ih]
      constructor
      · rintro ⟨u, hu, hup⟩
        exact ⟨u, Or.inr hu, hup⟩
      · rintro ⟨u, hu | hu, hup⟩
        · rw [hu] at hup
          exact absurd hup h
        · exact ⟨u, hu, hup⟩

/-- The profit-factor field, with the zero-trade gating collapsed: on an
empty trade list the gated sums are the (zero) empty sums anyway. -/
theorem summarize_profit_factor (equity_curve : List ℚ)
    (trades : List Trade) (initial_cash : ℚ) (test_days : Int) :
    (summarize_metrics equity_curve trades initial_cash
        test_days).profit_factor
      = (if losses trades = 0 ∧ 0 < profits trades then ProfitFactor.inf
         else if losses trades = 0 then ProfitFactor.fin 0
         else ProfitFactor.fin (profits trades / |losses trades|)) := by
  unfold summarize_metrics
  dsimp only
  by_cases h : 0 < trades.length
  · rw [if_pos h, if_pos h]
  · have hnil : trades = [] := List.length_eq_zero.mp (by omega)
    subst hnil
    norm_num [losses, profits]

/-- **C6.** The profit factor equals the sum of winning pnl divided by the
absolute sum of losing pnl whenever a losing trade exists; it is infinite
exactly when there is at least one winning trade and no losing trade; and
it is zero when there are neither wins nor losses (in particular on an
empty trade list). -/
theorem profit_factor_spec (equity_curve : List ℚ) (trades : List Trade)
    (initial_cash : ℚ) (test_days : Int) :
    ((summarize_metrics equity_curve trades initial_cash
          test_days).profit_factor = ProfitFactor.inf ↔
      (∃ t ∈ trades, 0 < t.pnl) ∧ ∀ t ∈ trades, ¬ t.pnl < 0) ∧
    (((∀ t ∈ trades, ¬ 0 < t.pnl) ∧ (∀ t ∈ trades, ¬ t.pnl < 0)) →
      (summarize_metrics equity_curve trades initial_cash
          test_days).profit_factor = ProfitFactor.fin 0) ∧
    (losses trades ≠ 0 →
      (summarize_metrics equity_curve trades initial_cash
          test_days).profit_factor
        = ProfitFactor.fin (profits trades / |losses trades|)) := by
  rw [summarize_profit_factor]
  refine ⟨?_, ?_, ?_⟩
  · constructor
    · intro hinf
      by_cases hc : losses trades = 0 ∧ 0 < profits trades
      · exact ⟨(profits_pos_iff trades).mp hc.2,
          (losses_eq_zero_iff trades).mp hc.1⟩
      · rw [if_neg hc] at hinf
        by_cases hl : losses trades = 0
        · rw [if_pos hl] at hinf
          exact absurd hinf (by simp)
        · rw [if_neg hl] at hinf
          exact absurd hinf (by simp)
    · rintro ⟨hw, hl⟩
      rw [if_pos ⟨(losses_eq_zero_iff trades).mpr hl,
        (profits_pos_iff trades).mpr hw⟩]
  · rintro ⟨hw, hl⟩
    have hl0 : losses trades = 0 := (losses_eq_zero_iff trades).mpr hl
    have hp0 : ¬ 0 < profits trades := by
      rw [profits_pos_iff]
      rintro ⟨t, ht, htp⟩
      exact hw t ht htp
    rw [if_neg (by tauto), if_pos hl0]
  · intro hl
    rw [if_neg (by tauto), if_neg hl]

/-- A winning and a losing trade for the C6 witness. -/
def tC6a : Trade :=
  { entry_ts := 0, exit_ts := 1, entry := 100, exit := 105, pnl := 5,
    pnl_pct := 5, reason := "take_profit", sl := 0, tp := 0 }

def tC6b : Trade :=
  { entry_ts := 2, exit_ts := 3, entry := 100, exit := 98, pnl := -2,
    pnl_pct := -2, reason := "stop_loss", sl := 0, tp := 0 }

/-- **C6 witness**: one win of 5 and one loss of 2 give profit factor
`5 / |-2|`. -/
theorem profit_factor_spec_witness :
    (summarize_metrics [] [tC6a, tC6b] 100 30).profit_factor
        = ProfitFactor.fin (profits [tC6a, tC6b] / |losses [tC6a, tC6b]|) :=
  (profit_factor_spec [] [tC6a, tC6b] 100 30).2.2
    (by with_unfolding_all decide)

/-! ## Scenario selection (C7) -/

theorem selectBestAux_mem {α : Type} (lt : α → α → Bool) (x : α)
    (l : List α) : selectBestAux lt x l ∈ x :: l := by
  induction l generalizing x with
  | nil => exact List.mem_singleton.mpr rfl
  | cons c cs ih =>
    unfold selectBestAux
    by_cases h : lt x c = true
    · rw [if_pos h]
      exact List.mem_cons_of_mem x (ih c)
    · rw [if_neg h]
      rcases List.mem_cons.mp (ih x) with h' | h'
      · rw [h']
        exact List.mem_cons_self x (c :: cs)
      · exact List.mem_cons_of_mem x (List.mem_cons_of_mem c h')

theorem selectBest_mem {α : Type} (lt : α → α → Bool) (l : List α)
    (c : α) (h : selectBest lt l = some c) : c ∈ l := by
  cases l with
  | nil => exact absurd h (by simp [selectBest])
  | cons x xs =>
    have hx : selectBestAux lt x xs = c := by
      have := h
      unfold selectBest at this
      exact Option.some.inj this
    exact hx ▸ selectBestAux_mem lt x xs

theorem selectBest_eq_none {α : Type} (lt : α → α → Bool) (l : List α) :
    selectBest lt l = none ↔ l = [] := by
  cases l <;> simp [selectBest]

theorem selectBest_isSome {α : Type} (lt : α → α → Bool) (l : List α)
    (h : l ≠ []) : ∃ c, selectBest lt l = some c := by
  cases l with
  | nil => exact absurd rfl h
  | cons x xs => exact ⟨_, rfl⟩

/-- The risk-exceeded relabelling does not touch the signature. -/
theorem sig_risk_exceeded (c : Candidate) :
    sig { c with risk_exceeded := true } = sig c := rfl

/-- In a list with pairwise distinct signatures of length ≥ 2, some
element avoids any one given signature. -/
theorem exists_sig_ne (cs : List Candidate)
    (hdist : cs.Pairwise fun a b => sig a ≠ sig b) (hlen : 2 ≤ cs.length)
    (s1 : String × Nat × String) : ∃ x ∈ cs, sig x ≠ s1 := by
  match cs, hlen with
  | x :: y :: rest, _ =>
    have hxy : sig x ≠ sig y :=
      (List.pairwise_cons.mp hdist).1 y (List.mem_cons_self y rest)
    by_cases hx : sig x = s1
    · refine ⟨y, List.mem_cons_of_mem x (List.mem_cons_self y rest), ?_⟩
      intro hy
      exact hxy (hx.trans hy.symm)
    · exact ⟨x, List.mem_cons_self x (y :: rest), hx⟩

/-- In a list with pairwise distinct signatures of length ≥ 3, some
element avoids any two given signatures. -/
theorem exists_sig_ne2 (cs : List Candidate)
    (hdist : cs.Pairwise fun a b => sig a ≠ sig b) (hlen : 3 ≤ cs.length)
    (s1 s2 : String × Nat × String) :
    ∃ x ∈ cs, sig x ≠ s1 ∧ sig x ≠ s2 := by
  match cs, hlen with
  | x :: y :: z :: rest, _ =>
    have h1 := List.pairwise_cons.mp hdist
    have h2 := List.pairwise_cons.mp h1.2
    have hxy : sig x ≠ sig y := h1.1 y (List.mem_cons_self y (z :: rest))
    have hxz : sig x ≠ sig z :=
      h1.1 z (List.mem_cons_of_mem y (List.mem_cons_self z rest))
    have hyz : sig y ≠ sig z := h2.1 z (List.mem_cons_self z rest)
    by_cases ex : sig x ≠ s1 ∧ sig x ≠ s2
    · exact ⟨x, List.mem_cons_self x (y :: z :: rest), ex⟩
    by_cases ey : sig y ≠ s1 ∧ sig y ≠ s2
    · exact ⟨y, List.mem_cons_of_mem x (List.mem_cons_self y (z :: rest)), ey⟩
    rw [not_and_or, not_not, not_not] at ex
    rw [not_and_or, not_not, not_not] at ey
    refine ⟨z, List.mem_cons_of_mem x (List.mem_cons_of_mem y
      (List.mem_cons_self z rest)), ?_, ?_⟩
    all_goals
      intro hz
      rcases ex with h1' | h1' <;> rcases ey with h2' | h2' <;>
        first
        | exact hxy (h1'.trans h2'.symm)
        | exact hxz (h1'.trans hz.symm)
        | exact hyz (h2'.trans hz.symm)

/-- Whenever some candidate's signature is unused, the scenario-B block
returns a candidate whose signature is unused (the full-pool fallback is
unreachable). -/
theorem selectScenarioB_not_used (DD_MAX : ℚ) (cs : List Candidate)
    (used1 : List (String × Nat × String)) (b : Candidate)
    (hne : ∃ x ∈ cs, used1.contains (sig x) = false)
    (h : selectScenarioB DD_MAX cs used1 = some b) :
    b ∈ cs ∨ (∃ b0 ∈ cs, b = { b0 with risk_exceeded := true }) := by
  unfold selectScenarioB at h
  dsimp only at h
  cases h1 : selectBest ltB (cs.filter fun c =>
      decide (c.metrics.max_drawdown ≤ DD_MAX) && !(used1.contains (sig c))) with
  | some b1 =>
    rw [h1] at h
    have hb1 := selectBest_mem _ _ _ h1
    exact Or.inl ((Option.some.inj h) ▸ (List.mem_filter.mp hb1).1)
  | none =>
    rw [h1] at h
    cases h2 : selectBest ltB (cs.filter fun c => !(used1.contains (sig c))) with
    | some b2 =>
      rw [h2] at h
      have hb2 := selectBest_mem _ _ _ h2
      exact Or.inr ⟨b2, (List.mem_filter.mp hb2).1, (Option.some.inj h).symm⟩
    | none =>
      exfalso
      obtain ⟨x, hx, hxc⟩ := hne
      have : x ∈ cs.filter fun c => !(used1.contains (sig c)) :=
        List.mem_filter.mpr ⟨hx, by rw [hxc]; rfl⟩
      rw [(selectBest_eq_none ltB _).mp h2] at this
      exact absurd this (List.not_mem_nil x)

/-- As `selectScenarioB_not_used`, but for the signature itself. -/
theorem selectScenarioB_sig_unused (DD_MAX : ℚ) (cs : List Candidate)
    (used1 : List (String × Nat × String)) (b : Candidate)
    (hne : ∃ x ∈ cs, used1.contains (sig x) = false)
    (h : selectScenarioB DD_MAX cs used1 = some b) :
    used1.contains (sig b) = false := by
  unfold selectScenarioB at h
  dsimp only at h
  cases h1 : selectBest ltB (cs.filter fun c =>
      decide (c.metrics.max_drawdown ≤ DD_MAX) && !(used1.contains (sig c))) with
  | some b1 =>
    rw [h1] at h
    have hb1 := selectBest_mem _ _ _ h1
    have hcond := (List.mem_filter.mp hb1).2
    rw [Bool.and_eq_true] at hcond
    rw [← Option.some.inj h, ← Bool.not_eq_true']
    exact hcond.2
  | none =>
    rw [h1] at h
    cases h2 : selectBest ltB (cs.filter fun c => !(used1.contains (sig c))) with
    | some b2 =>
      rw [h2] at h
      have hb2 := selectBest_mem _ _ _ h2
      have hcond := (List.mem_filter.mp hb2).2
      rw [← Option.some.inj h, sig_risk_exceeded, ← Bool.not_eq_true']
      exact hcond
    | none =>
      exfalso
      obtain ⟨x, hx, hxc⟩ := hne
      have : x ∈ cs.filter fun c => !(used1.contains (sig c)) :=
        List.mem_filter.mpr ⟨hx, by rw [hxc]; rfl⟩
      rw [(selectBest_eq_none ltB _).mp h2] at this
      exact absurd this (List.not_mem_nil x)

/-- Whenever some candidate's signature is unused, the scenario-C block
returns a candidate with an unused signature. -/
theorem selectScenarioC_sig_unused (TPW_TARGET : ℚ) (cs : List Candidate)
    (used2 : List (String × Nat × String)) (c : Candidate)
    (hne : ∃ x ∈ cs, used2.contains (sig x) = false)
    (h : selectScenarioC TPW_TARGET cs used2 = some c) :
    used2.contains (sig c) = false := by
  unfold selectScenarioC at h
  dsimp only at h
  cases h1 : selectBest (ltC TPW_TARGET)
      (cs.filter fun x => !(used2.contains (sig x))) with
  | some c1 =>
    rw [h1] at h
    have hc1 := selectBest_mem _ _ _ h1
    have hcond := (List.mem_filter.mp hc1).2
    rw [← Option.some.inj h, ← Bool.not_eq_true']
    exact hcond
  | none =>
    exfalso
    obtain ⟨x, hx, hxc⟩ := hne
    have : x ∈ cs.filter fun y => !(used2.contains (sig y)) :=
      List.mem_filter.mpr ⟨hx, by rw [hxc]; rfl⟩
    rw [(selectBest_eq_none (ltC TPW_TARGET) _).mp h1] at this
    exact absurd this (List.not_mem_nil x)

theorem selectScenarioB_isSome (DD_MAX : ℚ) (cs : List Candidate)
    (used1 : List (String × Nat × String)) (hcs : cs ≠ []) :
    ∃ b, selectScenarioB DD_MAX cs used1 = some b := by
  unfold selectScenarioB
  dsimp only
  cases h1 : selectBest ltB (cs.filter fun c =>
      decide (c.metrics.max_drawdown ≤ DD_MAX) && !(used1.contains (sig c))) with
  | some b1 => exact ⟨b1, rfl⟩
  | none =>
    cases h2 : selectBest ltB (cs.filter fun c => !(used1.contains (sig c))) with
    | some b2 => exact ⟨_, rfl⟩
    | none =>
      obtain ⟨b3, h3⟩ := selectBest_isSome ltB cs hcs
      rw [h3]
      exact ⟨_, rfl⟩

theorem selectScenarioC_isSome (TPW_TARGET : ℚ) (cs : List Candidate)
    (used2 : List (String × Nat × String)) (hcs : cs ≠ []) :
    ∃ c, selectScenarioC TPW_TARGET cs used2 = some c := by
  unfold selectScenarioC
  dsimp only
  cases h1 : selectBest (ltC TPW_TARGET)
      (cs.filter fun x => !(used2.contains (sig x))) with
  | some c1 => exact ⟨c1, rfl⟩
  | none => exact selectBest_isSome (ltC TPW_TARGET) cs hcs

theorem contains_singleton_false (s t : String × Nat × String) :
    ([s].contains t = false) ↔ t ≠ s := by
  constructor
  · intro h ht
    rw [ht] at h
    simp at h
  · intro h
    simpa using h

theorem contains_pair_false (s1 s2 t : String × Nat × String) :
    (([s1] ++ [s2]).contains t = false) ↔ (t ≠ s1 ∧ t ≠ s2) := by
  constructor
  · intro h
    constructor <;> intro ht <;> rw [ht] at h <;> simp at h
  · rintro ⟨h1, h2⟩
    simpa using ⟨h1, h2⟩

/-- **C7.** On any candidate pool with pairwise distinct
(timeframe, window, strictness) signatures and at least three entries —
in particular the full 12-combination grid — the Scenario Selector
assigns pairwise distinct signatures to A, B and C. -/
theorem scenario_non_collision (DD_MAX TPW_TARGET : ℚ)
    (cs : List Candidate)
    (hdist : cs.Pairwise fun a b => sig a ≠ sig b) (hlen : 3 ≤ cs.length) :
    ∃ a b c, run_scenarios_select DD_MAX TPW_TARGET cs = some (a, b, c) ∧
      sig a ≠ sig b ∧ sig a ≠ sig c ∧ sig b ≠ sig c := by
  have hcs : cs ≠ [] := by
    intro h
    rw [h] at hlen
    norm_num at hlen
  obtain ⟨a, ha⟩ := selectBest_isSome (ltA TPW_TARGET) cs hcs
  obtain ⟨b, hb⟩ := selectScenarioB_isSome DD_MAX cs [sig a] hcs
  obtain ⟨c, hc⟩ := selectScenarioC_isSome TPW_TARGET cs
    ([sig a] ++ [sig b]) hcs
  have hne1 : ∃ x ∈ cs, ([sig a]).contains (sig x) = false := by
    obtain ⟨x, hx, hxs⟩ := exists_sig_ne cs hdist (by omega) (sig a)
    exact ⟨x, hx, (contains_singleton_false (sig a) (sig x)).mpr hxs⟩
  have hbne : sig b ≠ sig a :=
    (contains_singleton_false (sig a) (sig b)).mp
      (selectScenarioB_sig_unused DD_MAX cs [sig a] b hne1 hb)
  have hne2 : ∃ x ∈ cs, (([sig a] ++ [sig b])).contains (sig x) = false := by
    obtain ⟨x, hx, hx1, hx2⟩ := exists_sig_ne2 cs hdist hlen (sig a) (sig b)
    exact ⟨x, hx, (contains_pair_false (sig a) (sig b) (sig x)).mpr ⟨hx1, hx2⟩⟩
  have hcne := (contains_pair_false (sig a) (sig b) (sig c)).mp
    (selectScenarioC_sig_unused TPW_TARGET cs ([sig a] ++ [sig b]) c hne2 hc)
  refine ⟨a, b, c, ?_, hbne.symm, hcne.1.symm, hcne.2.symm⟩
  simp only [run_scenarios_select, ha, hb, hc]

/-- One grid combination with neutral metrics, for the C7 witness. -/
def mkCand (tf : String) (w : Nat) (m : String) : Candidate :=
  { timeframe := tf, ema_window := w, signal_mode := m,
    metrics := { expectancy := 0, max_drawdown := 0, trades_per_week := 0,
                 annualized_return := 0 },
    risk_exceeded := false }

/-- The full 12-combination grid (3 timeframes × 2 windows × 2 modes). -/
def gridC7 : List Candidate :=
  [mkCand "1h" 20 "strict", mkCand "1h" 20 "relaxed",
   mkCand "1h" 50 "strict", mkCand "1h" 50 "relaxed",
   mkCand "4h" 20 "strict", mkCand "4h" 20 "relaxed",
   mkCand "4h" 50 "strict", mkCand "4h" 50 "relaxed",
   mkCand "1d" 20 "strict", mkCand "1d" 20 "relaxed",
   mkCand "1d" 50 "strict", mkCand "1d" 50 "relaxed"]

/-- **C7 witness**: the non-collision theorem applied to the concrete
12-combination grid. -/
theorem scenario_non_collision_witness :
    ∃ a b c, run_scenarios_select 30 2 gridC7 = some (a, b, c) ∧
      sig a ≠ sig b ∧ sig a ≠ sig c ∧ sig b ≠ sig c :=
  scenario_non_collision 30 2 gridC7 (by decide) (by decide)

/-! ## Validation (C5) -/

theorem missing_columns_iff (cols : List String) :
    ((REQUIRED_COLUMNS.filter fun c => !(cols.contains c)) = []) ↔
      ∀ c ∈ REQUIRED_COLUMNS, c ∈ cols := by
  rw [List.filter_eq_nil_iff]
  constructor <;> intro h c hc
  · simpa using h c hc
  · simpa using h c hc

theorem any_isNone_false_iff (l : List (Option Bool)) :
    ((l.any fun o => o.isNone) = false) ↔ ∀ o ∈ l, o ≠ none := by
  constructor
  · intro h o ho hn
    have ht : (l.any fun o => o.isNone) = true :=
      List.any_eq_true.mpr ⟨o, ho, by rw [hn]; rfl⟩
    rw [h] at ht
    exact Bool.noConfusion ht
  · intro h
    by_contra hne
    rw [Bool.not_eq_false] at hne
    obtain ⟨o, ho, hno⟩ := List.any_eq_true.mp hne
    exact h o ho (Option.isNone_iff_eq_none.mp hno)

/-- **C5.** The signal-driven engine's validation succeeds if and only if
the frame is non-empty, every required column is present, both signal
sequences match the frame length, and no signal cell is missing — so it
raises exactly on the claimed conditions, before any simulation runs; and
the Strategy-Lab entry point raises a descriptive error whenever the
objective name is unsupported or a candidate-count bound (`max_runs`,
`top_n`) is below one, before any candidate is evaluated. -/
theorem validation_spec :
    (∀ (f : RawFrame) (entry_signal exit_signal : List (Option Bool)),
      validate_inputs f entry_signal exit_signal = .ok () ↔
        (f.nrows ≠ 0 ∧ (∀ c ∈ REQUIRED_COLUMNS, c ∈ f.columns) ∧
         entry_signal.length = f.nrows ∧ exit_signal.length = f.nrows ∧
         (∀ o ∈ entry_signal, o ≠ none) ∧ (∀ o ∈ exit_signal, o ≠ none))) ∧
    (∀ (nrows : Nat) (objective : String) (max_runs top_n : Int),
      (objective ∉ OBJECTIVES.map Prod.fst ∨ max_runs < 1 ∨ top_n < 1) →
        ∃ e, run_strategy_lab_validate nrows objective max_runs top_n
          = .error e) := by
  constructor
  · intro f entry_signal exit_signal
    unfold validate_inputs
    split_ifs with h1 h2 h3 h4 h5
    · constructor
      · intro hx
        exact absurd hx (by simp)
      · rintro ⟨hn, -⟩
        exact absurd h1 hn
    · constructor
      · intro hx
        exact absurd hx (by simp)
      · rintro ⟨-, hcols, -⟩
        exact h2 ((missing_columns_iff f.columns).mpr hcols)
    · constructor
      · intro hx
        exact absurd hx (by simp)
      · rintro ⟨-, -, hlen, -⟩
        exact h3 hlen
    · constructor
      · intro hx
        exact absurd hx (by simp)
      · rintro ⟨-, -, -, hlen, -⟩
        exact h4 hlen
    · constructor
      · intro hx
        exact absurd hx (by simp)
      · rintro ⟨-, -, -, -, hae, hax⟩
        rw [(any_isNone_false_iff entry_signal).mpr hae,
          (any_isNone_false_iff exit_signal).mpr hax] at h5
        simp at h5
    · constructor
      · intro _
        rw [Bool.not_eq_true, Bool.or_eq_false_iff] at h5
        exact ⟨h1, (missing_columns_iff f.columns).mp (not_not.mp h2),
          not_not.mp h3, not_not.mp h4,
          (any_isNone_false_iff entry_signal).mp h5.1,
          (any_isNone_false_iff exit_signal).mp h5.2⟩
      · intro _
        rfl
  · intro nrows objective max_runs top_n h
    unfold run_strategy_lab_validate
    by_cases h1 : nrows = 0
    · rw [if_pos h1]
      exact ⟨_, rfl⟩
    · rw [if_neg h1]
      by_cases h2 : (OBJECTIVES.map Prod.fst).contains objective = true
      · rw [if_neg (not_not_intro h2)]
        by_cases h3 : max_runs < 1
        · rw [if_pos h3]
          exact ⟨_, rfl⟩
        · rw [if_neg h3]
          by_cases h4 : top_n < 1
          · rw [if_pos h4]
            exact ⟨_, rfl⟩
          · exfalso
            rcases h with h | h | h
            · exact h (by simpa using h2)
            · exact h3 h
            · exact h4 h
      · rw [if_pos h2]
        exact ⟨_, rfl⟩

/-- **C5 witness**: a well-formed two-row frame passes validation, and
the lab rejects the unsupported objective name `Bogus`. -/
theorem validation_spec_witness :
    validate_inputs ⟨["ts", "open", "high", "low", "close"], 2⟩
        [some true, some false] [some false, some true] = .ok () ∧
    ∃ e, run_strategy_lab_validate 5 "Bogus" 3 3 = .error e :=
  ⟨(validation_spec.1 ⟨["ts", "open", "high", "low", "close"], 2⟩
      [some true, some false] [some false, some true]).mpr (by decide),
   validation_spec.2 5 "Bogus" 3 3 (Or.inl (by decide))⟩

/-! ## Final decision (C8) -/

/-- The head of a stable descending sort by a linear-order key bounds
every input's key from above. -/
theorem selectBestAux_key_le {α β : Type} [LinearOrder β] (key : α → β)
    (x : α) (l : List α) :
    ∀ y ∈ x :: l,
      key y ≤ key (selectBestAux (fun a b => decide (key a < key b)) x l) := by
  induction l generalizing x with
  | nil =>
    intro y hy
    rw [List.mem_singleton.mp hy]
    exact le_refl _
  | cons c cs ih =>
    intro y hy
    unfold selectBestAux
    by_cases h : key x < key c
    · rw [if_pos (decide_eq_true h)]
      rcases List.mem_cons.mp hy with rfl | hy'
      · exact le_trans h.le (ih c c (List.mem_cons_self c cs))
      · rcases List.mem_cons.mp hy' with rfl | hy''
        · exact ih y y (List.mem_cons_self y cs)
        · exact ih c y (List.mem_cons_of_mem c hy'')
    · rw [if_neg (by simpa using h)]
      rcases List.mem_cons.mp hy with rfl | hy'
      · exact ih y y (List.mem_cons_self y cs)
      · rcases List.mem_cons.mp hy' with rfl | hy''
        · exact le_trans (not_lt.mp h) (ih x x (List.mem_cons_self x cs))
        · exact ih x y (List.mem_cons_of_mem x hy'')

theorem mem_items_cases (a b c : ScenRun) (kv : String × ScenRun)
    (h : kv ∈ [("A", a), ("B", b), ("C", c)]) :
    kv = ("A", a) ∨ kv = ("B", b) ∨ kv = ("C", c) := by
  simpa using h

theorem scenOf_A (a b c : ScenRun) : scenOf a b c "A" = a := by
  unfold scenOf
  rw [if_pos rfl]

theorem scenOf_B (a b c : ScenRun) : scenOf a b c "B" = b := by
  unfold scenOf
  rw [if_neg (by decide : ¬("B" : String) = "A"), if_pos rfl]

theorem scenOf_C (a b c : ScenRun) : scenOf a b c "C" = c := by
  unfold scenOf
  rw [if_neg (by decide : ¬("C" : String) = "A"),
    if_neg (by decide : ¬("C" : String) = "B"), if_pos rfl]

theorem scenOf_of_mem (a b c : ScenRun) (kv : String × ScenRun)
    (h : kv ∈ [("A", a), ("B", b), ("C", c)]) :
    scenOf a b c kv.1 = kv.2 := by
  rcases mem_items_cases a b c kv h with rfl | rfl | rfl
  · exact scenOf_A a b c
  · exact scenOf_B a b c
  · exact scenOf_C a b c

theorem statusOf_A (a b c : ScenRun) : statusOf a b c "A" = a.status := by
  unfold statusOf
  rw [if_pos rfl]

theorem statusOf_B (a b c : ScenRun) : statusOf a b c "B" = b.status := by
  unfold statusOf
  rw [if_neg (by decide : ¬("B" : String) = "A"), if_pos rfl]

theorem statusOf_C (a b c : ScenRun) : statusOf a b c "C" = c.status := by
  unfold statusOf
  rw [if_neg (by decide : ¬("C" : String) = "A"),
    if_neg (by decide : ¬("C" : String) = "B"), if_pos rfl]

theorem annDdKey_le_elim (p q : String × ScenRun)
    (h : annDdKey p ≤ annDdKey q) :
    p.2.ann < q.2.ann ∨ (p.2.ann = q.2.ann ∧ q.2.dd ≤ p.2.dd) := by
  rcases (Prod.Lex.le_iff _ _).mp h with h1 | ⟨h1, h2⟩
  · exact Or.inl h1
  · refine Or.inr ⟨h1, ?_⟩
    dsimp only at h2
    linarith

/-- **C8.** The cross-scenario decision is `NO` exactly when all three
verdicts are RED.  Otherwise, with at least one GREEN verdict the label is
`INVEST` and the recommendation is the GREEN scenario in priority order B,
A, C.  Otherwise the label is `CAUTION`; with at least one YELLOW verdict
the recommendation is a YELLOW scenario of maximal decision score, and
with no YELLOW verdict it is a scenario with the lexicographically best
(annualized return, lowest drawdown). -/
theorem final_decision_spec (a b c : ScenRun) :
    ((a.status = "RED" ∧ b.status = "RED" ∧ c.status = "RED") ↔
      (final_decision a b c).1 = "NO") ∧
    ((a.status = "GREEN" ∨ b.status = "GREEN" ∨ c.status = "GREEN") →
      (final_decision a b c).1 = "INVEST" ∧
      (final_decision a b c).2
        = (if b.status = "GREEN" then "B"
           else if a.status = "GREEN" then "A" else "C") ∧
      (scenOf a b c (final_decision a b c).2).status = "GREEN") ∧
    (¬ (a.status = "RED" ∧ b.status = "RED" ∧ c.status = "RED") →
     ¬ (a.status = "GREEN" ∨ b.status = "GREEN" ∨ c.status = "GREEN") →
      (final_decision a b c).1 = "CAUTION" ∧
      ((∃ s ∈ [a, b, c], s.status = "YELLOW") →
        (scenOf a b c (final_decision a b c).2).status = "YELLOW" ∧
        ∀ s ∈ [a, b, c], s.status = "YELLOW" →
          s.score ≤ (scenOf a b c (final_decision a b c).2).score) ∧
      ((∀ s ∈ [a, b, c], s.status ≠ "YELLOW") →
        ∀ s ∈ [a, b, c],
          s.ann < (scenOf a b c (final_decision a b c).2).ann ∨
          (s.ann = (scenOf a b c (final_decision a b c).2).ann ∧
            (scenOf a b c (final_decision a b c).2).dd ≤ s.dd))) := by
  refine ⟨⟨?_, ?_⟩, ?_, ?_⟩
  · intro h
    unfold final_decision
    dsimp only
    rw [if_pos h]
  · intro h
    by_contra hnr
    revert h
    unfold final_decision
    dsimp only
    rw [if_neg hnr]
    have hgen : ∀ (p : Prop) (inst : Decidable p) (r : String),
        (@ite _ p inst ("INVEST", r) ("CAUTION", r)).1 = "NO" → False := by
      intro p inst r hx
      haveI := inst
      by_cases hp : p
      · rw [if_pos hp] at hx
        exact (by decide : ("INVEST" : String) ≠ "NO") hx
      · rw [if_neg hp] at hx
        exact (by decide : ("CAUTION" : String) ≠ "NO") hx
    exact hgen _ _ _
  · intro hg
    have hnr : ¬ (a.status = "RED" ∧ b.status = "RED" ∧ c.status = "RED") := by
      rintro ⟨hra, hrb, hrc⟩
      rcases hg with h | h | h
      · rw [h] at hra
        exact (by decide : ("GREEN" : String) ≠ "RED") hra
      · rw [h] at hrb
        exact (by decide : ("GREEN" : String) ≠ "RED") hrb
      · rw [h] at hrc
        exact (by decide : ("GREEN" : String) ≠ "RED") hrc
    by_cases hgb : b.status = "GREEN"
    · have hcond : (a.status = "GREEN" ∨ b.status = "GREEN" ∨
          c.status = "GREEN") ∧ statusOf a b c "B" ≠ "RED" := by
        refine ⟨Or.inr (Or.inl hgb), ?_⟩
        rw [statusOf_B, hgb]
        decide
      have hfd : final_decision a b c = ("INVEST", "B") := by
        unfold final_decision
        dsimp only
        rw [if_pos hgb, if_neg hnr, if_pos hcond]
      rw [hfd]
      exact ⟨rfl, by rw [if_pos hgb], by rw [scenOf_B]; exact hgb⟩
    · by_cases hga : a.status = "GREEN"
      · have hcond : (a.status = "GREEN" ∨ b.status = "GREEN" ∨
            c.status = "GREEN") ∧ statusOf a b c "A" ≠ "RED" := by
          refine ⟨Or.inl hga, ?_⟩
          rw [statusOf_A, hga]
          decide
        have hfd : final_decision a b c = ("INVEST", "A") := by
          unfold final_decision
          dsimp only
          rw [if_neg hgb, if_pos hga, if_neg hnr, if_pos hcond]
        rw [hfd]
        exact ⟨rfl, by rw [if_neg hgb, if_pos hga],
          by rw [scenOf_A]; exact hga⟩
      · have hgc : c.status = "GREEN" := by
          rcases hg with h | h | h
          exacts [absurd h hga, absurd h hgb, h]
        have hcond : (a.status = "GREEN" ∨ b.status = "GREEN" ∨
            c.status = "GREEN") ∧ statusOf a b c "C" ≠ "RED" := by
          refine ⟨Or.inr (Or.inr hgc), ?_⟩
          rw [statusOf_C, hgc]
          decide
        have hfd : final_decision a b c = ("INVEST", "C") := by
          unfold final_decision
          dsimp only
          rw [if_neg hgb, if_neg hga, if_pos hgc, if_neg hnr, if_pos hcond]
        rw [hfd]
        exact ⟨rfl, by rw [if_neg hgb, if_neg hga],
          by rw [scenOf_C]; exact hgc⟩
  · intro hnr hng
    push_neg at hng
    obtain ⟨hga, hgb, hgc⟩ := hng
    have hc2 : ∀ r : String,
        ¬ ((a.status = "GREEN" ∨ b.status = "GREEN" ∨ c.status = "GREEN") ∧
          statusOf a b c r ≠ "RED") := by
      intro r
      rintro ⟨hg, -⟩
      rcases hg with h | h | h
      exacts [hga h, hgb h, hgc h]
    cases hfil : [("A", a), ("B", b), ("C", c)].filter
        (fun kv => decide (kv.2.status = "YELLOW")) with
    | nil =>
      have hfd : final_decision a b c
          = ("CAUTION",
             (selectBestAux (fun p q => decide (annDdKey p < annDdKey q))
               ("A", a) [("B", b), ("C", c)]).1) := by
        unfold final_decision
        dsimp only
        rw [if_neg hgb, if_neg hga, if_neg hgc, hfil, if_neg hnr,
          if_neg (hc2 _)]
      have hnoy : ∀ kv ∈ [("A", a), ("B", b), ("C", c)],
          ¬ kv.2.status = "YELLOW" := by
        intro kv hkv
        have hkv2 := List.filter_eq_nil_iff.mp hfil kv hkv
        simpa using hkv2
      rw [hfd]
      dsimp only
      have hrmem : selectBestAux (fun p q => decide (annDdKey p < annDdKey q))
          ("A", a) [("B", b), ("C", c)] ∈ [("A", a), ("B", b), ("C", c)] :=
        selectBestAux_mem _ _ _
      have hsc := scenOf_of_mem a b c _ hrmem
      refine ⟨rfl, ?_, ?_⟩
      · rintro ⟨s, hs, hsy⟩
        exfalso
        simp only [List.mem_cons, List.not_mem_nil, or_false] at hs
        rcases hs with h | h | h
        · rw [h] at hsy
          exact hnoy ("A", a) (List.mem_cons_self _ _) hsy
        · rw [h] at hsy
          exact hnoy ("B", b) (by simp) hsy
        · rw [h] at hsy
          exact hnoy ("C", c) (by simp) hsy
      · intro _ s hs
        rw [hsc]
        have key_le := selectBestAux_key_le annDdKey ("A", a)
          [("B", b), ("C", c)]
        simp only [List.mem_cons, List.not_mem_nil, or_false] at hs
        rcases hs with h | h | h
        · rw [h]
          exact annDdKey_le_elim ("A", a) _
            (key_le ("A", a) (List.mem_cons_self _ _))
        · rw [h]
          exact annDdKey_le_elim ("B", b) _ (key_le ("B", b) (by simp))
        · rw [h]
          exact annDdKey_le_elim ("C", c) _ (key_le ("C", c) (by simp))
    | cons y ys =>
      have hfd : final_decision a b c
          = ("CAUTION",
             (selectBestAux (fun p q => decide (scoreKey p < scoreKey q))
               y ys).1) := by
        unfold final_decision
        dsimp only
        rw [if_neg hgb, if_neg hga, if_neg hgc, hfil, if_neg hnr,
          if_neg (hc2 _)]
      have hrfil : selectBestAux (fun p q => decide (scoreKey p < scoreKey q))
          y ys ∈ [("A", a), ("B", b), ("C", c)].filter
            (fun kv => decide (kv.2.status = "YELLOW")) := by
        rw [hfil]
        exact selectBestAux_mem _ _ _
      have hrmem := (List.mem_filter.mp hrfil).1
      have hry : (selectBestAux (fun p q => decide (scoreKey p < scoreKey q))
          y ys).2.status = "YELLOW" :=
        of_decide_eq_true (List.mem_filter.mp hrfil).2
      have hsc := scenOf_of_mem a b c _ hrmem
      rw [hfd]
      dsimp only
      refine ⟨rfl, ?_, ?_⟩
      · intro _
        refine ⟨by rw [hsc]; exact hry, ?_⟩
        intro s hs hsy
        rw [hsc]
        have key_le := selectBestAux_key_le scoreKey y ys
        simp only [List.mem_cons, List.not_mem_nil, or_false] at hs
        rcases hs with h | h | h
        · rw [h] at hsy ⊢
          have hins : ("A", a) ∈ y :: ys := by
            rw [← hfil]
            exact List.mem_filter.mpr ⟨by simp, decide_eq_true hsy⟩
          exact key_le _ hins
        · rw [h] at hsy ⊢
          have hins : ("B", b) ∈ y :: ys := by
            rw [← hfil]
            exact List.mem_filter.mpr ⟨by simp, decide_eq_true hsy⟩
          exact key_le _ hins
        · rw [h] at hsy ⊢
          have hins : ("C", c) ∈ y :: ys := by
            rw [← hfil]
            exact List.mem_filter.mpr ⟨by simp, decide_eq_true hsy⟩
          exact key_le _ hins
      · intro hny
        exfalso
        have hyfil : y ∈ [("A", a), ("B", b), ("C", c)].filter
            (fun kv => decide (kv.2.status = "YELLOW")) := by
          rw [hfil]
          exact List.mem_cons_self y ys
        have hymem := (List.mem_filter.mp hyfil).1
        have hyy : y.2.status = "YELLOW" :=
          of_decide_eq_true (List.mem_filter.mp hyfil).2
        rcases mem_items_cases a b c y hymem with rfl | rfl | rfl
        · exact hny a (by simp) hyy
        · exact hny b (by simp) hyy
        · exact hny c (by simp) hyy

/-- Concrete scenarios for the C8 witness: two YELLOWs and one RED. -/
def scA : ScenRun := { status := "YELLOW", score := 1, ann := 10, dd := 5 }

def scB : ScenRun := { status := "YELLOW", score := 2, ann := 12, dd := 6 }

def scC : ScenRun := { status := "RED", score := 0, ann := -1, dd := 50 }

/-- **C8 witness**: with two YELLOW scenarios and one RED, the decision is
CAUTION and the recommendation is a YELLOW scenario of maximal score. -/
theorem final_decision_spec_witness :
    (final_decision scA scB scC).1 = "CAUTION" ∧
    (scenOf scA scB scC (final_decision scA scB scC).2).status
        = "YELLOW" ∧
    ∀ s ∈ [scA, scB, scC], s.status = "YELLOW" →
      s.score ≤ (scenOf scA scB scC (final_decision scA scB scC).2).score := by
  have h := (final_decision_spec scA scB scC).2.2 (by decide) (by decide)
  obtain ⟨h1, h2, -⟩ := h
  obtain ⟨h3, h4⟩ := h2 ⟨scA, by simp, rfl⟩
  exact ⟨h1, h3, h4⟩

end MarketDecisionLab
